import Mathlib

/-!
# CloverDashboard — verification of the spec against the source

Shallow embedding of the inventory-dashboard core: identifier
normalization and fuzzy matching (`src/lib/utils.ts`), the vendor
stock-delta rules (`src/lib/vendor-configs.ts`), the Clover client's
stock-update retry loop (`src/lib/clover.ts`), the full-sync and
tag-refresh upsert passes (`src/app/api/inventory/...`), the
missing-item detection, and the bulk stock applier
(`src/components/ItemsTable.tsx`, `AddInventoryModal`).

JavaScript-specific behaviour (truthiness, `parseInt`, `||`, `??`,
`String.prototype.includes`) is modelled by explicit helper functions so
that each embedded definition can copy the source expression shape.
-/

namespace Clover

/-! ## JavaScript primitives -/

/-- JS truthiness for a possibly-absent string: `undefined`, `null` and
`""` are falsy. -/
def truthyStr : Option String → Bool
  | none => false
  | some s => s ≠ ""

/-- JS `a || d` where `a` is a possibly-absent string: falls back to `d`
when `a` is `undefined`/`null`/`""`. -/
def jsOrStr (a : Option String) (d : String) : String :=
  match a with
  | none => d
  | some s => if s = "" then d else s

/-- JS `a || null` on a possibly-absent string (used by the upsert
payloads `sku: item.sku || null`): empty strings collapse to `null`. -/
def jsOrNullStr (a : Option String) : Option String :=
  match a with
  | none => none
  | some s => if s = "" then none else some s

/-- JS `a || d` on a possibly-absent number (`undefined`/`NaN`/`0` are
falsy). -/
def jsOrInt (a : Option Int) (d : Int) : Int :=
  match a with
  | none => d
  | some v => if v = 0 then d else v

/-- Lowercase a string character-wise (ASCII, which is all that survives
the normalizer, and all the embedded comparisons need). -/
def lowerStr (s : String) : String :=
  String.mk (s.toList.map Char.toLower)

/-- Does `sub` occur as a contiguous substring of `l` (JS
`String.prototype.includes`)?  `[]` occurs in everything. -/
def listContainsSub (l sub : List Char) : Bool :=
  match l with
  | [] => sub.isEmpty
  | _ :: t => sub.isPrefixOf l || listContainsSub t sub

/-- JS `s.includes(sub)`. -/
def jsIncludes (s sub : String) : Bool :=
  listContainsSub s.toList sub.toList

/-- JS `String.prototype.trim()`: strip leading and trailing
whitespace. -/
def jsTrim (s : String) : String :=
  String.mk (((s.toList.dropWhile Char.isWhitespace).reverse.dropWhile
    Char.isWhitespace).reverse)

/-- JS `parseInt(str, 10)`: skip leading whitespace, optional sign,
then the maximal digit prefix; `none` models `NaN` (no digits). -/
def jsParseInt (s : String) : Option Int :=
  let t := (jsTrim s).toList
  let (sign, rest) :=
    match t with
    | '-' :: r => ((-1 : Int), r)
    | '+' :: r => ((1 : Int), r)
    | r => ((1 : Int), r)
  let digits := rest.takeWhile Char.isDigit
  if digits.isEmpty then none
  else some (sign * (Int.ofNat (digits.foldl (fun n c => 10 * n + (c.toNat - '0'.toNat)) 0)))

/-- JS `parseInt(str, 10) || d` (`NaN` and `0` both fall back). -/
def jsParseIntOr (s : String) (d : Int) : Int :=
  jsOrInt (jsParseInt s) d

/-! ## Identifier Normalizer (`src/lib/utils.ts`) -/

/-- `normalizeUPC`: trim, drop every non-alphanumeric character,
lowercase; `null`/`undefined` normalize to `""`. -/
def normalizeUPC (upc : Option String) : String :=
  match upc with
  | none => ""
  | some s =>
    if s = "" then ""
    else String.mk (((jsTrim s).toList.filter Char.isAlphanum).map Char.toLower)

/-- `removeLeadingZeros` from `fuzzyMatchUPC`:
`str.replace(/^0+/, "") || "0"`. -/
def removeLeadingZeros (s : String) : String :=
  let t := String.mk (s.toList.dropWhile (· = '0'))
  if t = "" then "0" else t

/-- `fuzzyMatchUPC` (`src/lib/utils.ts:40-68`): normalized equality,
then leading-zero-stripped equality, then substring containment with
length difference ≤ 2. -/
def fuzzyMatchUPC (upc1 upc2 : Option String) : Bool :=
  let normalized1 := normalizeUPC upc1
  let normalized2 := normalizeUPC upc2
  if normalized1 = "" ∨ normalized2 = "" then false
  else if normalized1 = normalized2 then true
  else if 0 < normalized1.length ∧ 0 < normalized2.length then
    let clean1 := removeLeadingZeros normalized1
    let clean2 := removeLeadingZeros normalized2
    if clean1 = clean2 then true
    else if jsIncludes clean1 clean2 ∨ jsIncludes clean2 clean1 then
      ((clean1.length : Int) - (clean2.length : Int)).natAbs ≤ 2
    else false
  else false

end Clover

namespace Clover

/-! ## Vendor Rule Registry (`src/lib/vendor-configs.ts`) -/

/-- A parsed CSV row: a string-keyed mapping (the first entry wins on
duplicate keys). -/
abbrev Row := List (String × String)

/-- JS property read `row[k]`. -/
def rowGet (row : Row) (k : String) : Option String :=
  (row.find? (fun p => p.1 = k)).map (fun p => p.2)

structure VendorConfig where
  name : String
  displayName : String
  calculateStock : Row → Int

/-- `Vendor_Kehe`: stock from the `ShipQuantity` column
(`src/lib/vendor-configs.ts:17-24`). -/
def vendorKehe : VendorConfig where
  name := "Vendor_Kehe"
  displayName := "Kehe"
  calculateStock := fun row =>
    let shipQuantity := jsOrStr (rowGet row "ShipQuantity")
      (jsOrStr (rowGet row "Ship Quantity") (jsOrStr (rowGet row "ShipQuantity") "0"))
    jsParseIntOr shipQuantity 0

/-- `Vendor_CoreMark`: `Qty * Unit Size`, or just `Qty` when the
"Broken Case" column is a checkmark or `"true"`
(`src/lib/vendor-configs.ts:30-44`). -/
def vendorCoreMark : VendorConfig where
  name := "Vendor_CoreMark"
  displayName := "CoreMark"
  calculateStock := fun row =>
    let qty := jsParseIntOr (jsOrStr (rowGet row "Qty") (jsOrStr (rowGet row "Qty") "0")) 0
    let brokenCase := jsOrStr (rowGet row "Broken Case")
      (jsOrStr (rowGet row "BrokenCase") (jsOrStr (rowGet row "Broken Case") ""))
    if brokenCase = "✔" ∨ brokenCase = "✓" ∨ lowerStr brokenCase = "true" then qty
    else
      let unitSize := jsParseIntOr (jsOrStr (rowGet row "Unit Size")
        (jsOrStr (rowGet row "UnitSize") (jsOrStr (rowGet row "Unit Size") "1"))) 1
      qty * unitSize

/-- `Vendor_Walmart`: quantity counts only when `Status` is
case-insensitively `"shopped"` (`src/lib/vendor-configs.ts:46-56`). -/
def vendorWalmart : VendorConfig where
  name := "Vendor_Walmart"
  displayName := "Walmart"
  calculateStock := fun row =>
    let status := lowerStr (jsOrStr (rowGet row "Status") (jsOrStr (rowGet row "Status") ""))
    if status ≠ "shopped" then 0
    else
      let quantity := jsOrStr (rowGet row "Quantity") (jsOrStr (rowGet row "Quantity") "0")
      jsParseIntOr quantity 0

/-- `default` vendor: reads the operator-selected column, whose name is
smuggled onto the row as `_stockColumnName`
(`src/lib/vendor-configs.ts:63-76`). -/
def defaultVendor : VendorConfig where
  name := "default"
  displayName := "Default (Select Stock Column)"
  calculateStock := fun row =>
    match rowGet row "_stockColumnName" with
    | none => 0
    | some col =>
      if col = "" then 0
      else
        match rowGet row col with
        | none => 0
        | some v =>
          if v = "" then 0
          else
            match jsParseInt v with
            | some value => value
            | none => 0

def vendorConfigs : List VendorConfig :=
  [vendorKehe, vendorCoreMark, vendorWalmart, defaultVendor]

def getVendorConfig (name : String) : VendorConfig :=
  (vendorConfigs.find? (fun config => config.name = name)).getD defaultVendor
end Clover

namespace Clover

/-! ## Remote Catalog Client: `updateItemStock` (`src/lib/clover.ts:506-556`) -/

inductive StockUpdateOutcome where
  | ok
  | badRequest
  | serverError
  | upstreamError (status : Nat)
deriving DecidableEq

/-- `updateItemStock(itemId, stockCount, retries = 3)`.  `resp n` is the
HTTP status the remote returns on the `n`-th attempt (0-indexed).  The
result pairs the final outcome with the list of backoff waits (in ms)
performed before each retry: on 429 with retries left the code waits
`(4 - retries) * 2000` ms and recurses with `retries - 1`; a 400 gives a
distinguishable bad-request error; a 500 a server error; anything else
(including a 429 with no retries left) the generic upstream error. -/
def updateItemStock (resp : Nat → Nat) (attempt : Nat) (retries : Nat) :
    StockUpdateOutcome × List Nat :=
  let status := resp attempt
  if 200 ≤ status ∧ status < 300 then (.ok, [])
  else if h : status = 429 ∧ 0 < retries then
    let waitTime := (4 - retries) * 2000
    let rest := updateItemStock resp (attempt + 1) (retries - 1)
    (rest.1, waitTime :: rest.2)
  else if status = 400 then (.badRequest, [])
  else if status = 500 then (.serverError, [])
  else (.upstreamError status, [])
termination_by retries
decreasing_by omega

end Clover

namespace Clover

/-! ## Data model (`src/lib/clover.ts:1-31` and `prisma` InventoryItem) -/

structure ItemStock where
  stockCount : Int
  quantity : Int
deriving DecidableEq

structure CategoryRef where
  id : String
  name : String
deriving DecidableEq

structure TagRef where
  id : String
  name : String
deriving DecidableEq

/-- A remote catalog item as delivered by the Clover API (`CloverItem`),
restricted to the fields the verified routes read.  `categories` and
`tags` stand for the `elements` arrays of the expansions (absent
expansion and empty list behave identically in every consuming
expression). -/
structure CloverItem where
  id : String
  name : String
  price : Int
  cost : Option Int
  stockCount : Option Int
  available : Option Bool
  code : Option String
  sku : Option String
  modifiedTime : Option Int
  itemStock : Option ItemStock
  categories : List CategoryRef
  tags : List TagRef
deriving DecidableEq

/-- A mirror row (`InventoryItem`), restricted to the fields the
verified routes write and read; `lastSynced` carries the `now`
timestamp threaded through a pass (`Date.now()`/`new Date()` are
external inputs of the embedding). -/
structure MirrorRow where
  id : String
  name : String
  price : Int
  sku : Option String
  code : Option String
  cost : Option Int
  stockCount : Int
  available : Bool
  categoryId : Option String
  categoryName : Option String
  tags : List String
  modifiedTime : Int
  lastSynced : Int
deriving DecidableEq

/-- JS `a || null` on a possibly-absent number (`cost: item.cost || null`
drops a 0 cost to `null`). -/
def jsOrNullInt (a : Option Int) : Option Int :=
  match a with
  | none => none
  | some v => if v = 0 then none else some v

/-- The row written by the sync upsert (`src/unnamed/part_001:33-99`)
and, identically, by the tag-refresh upsert
(`src/app/api/inventory/add-tag/route.ts:33-93`). -/
def toRow (now : Int) (item : CloverItem) : MirrorRow :=
  let categoryName := jsOrNullStr (item.categories.head?.map (fun c => c.name))
  let categoryId := jsOrNullStr (item.categories.head?.map (fun c => c.id))
  let tags := item.tags.map (fun tag => tag.id)
  let actualStockCount : Int :=
    match item.itemStock with
    | some st => st.stockCount
    | none =>
      match item.stockCount with
      | some v => v
      | none => 0
  { id := item.id
    name := item.name
    price := item.price
    sku := jsOrNullStr item.sku
    code := jsOrNullStr item.code
    cost := jsOrNullInt item.cost
    stockCount := actualStockCount
    available := item.available.getD true
    categoryId := categoryId
    categoryName := categoryName
    tags := tags
    modifiedTime := jsOrInt item.modifiedTime now
    lastSynced := now }

/-! ## Local Mirror Store primitives (Prisma single-row operations) -/

/-- `prisma.inventoryItem.findUnique({ where: { id } })`. -/
def findUniqueById (id : String) (m : List MirrorRow) : Option MirrorRow :=
  m.find? (fun r => r.id = id)

/-- `prisma.inventoryItem.findUnique({ where: { sku } })`. -/
def findUniqueBySku (s : String) (m : List MirrorRow) : Option MirrorRow :=
  m.find? (fun r => r.sku = some s)

/-- `prisma.inventoryItem.delete({ where: { id } })`. -/
def deleteById (id : String) (m : List MirrorRow) : List MirrorRow :=
  m.filter (fun r => r.id ≠ id)

/-- `prisma.inventoryItem.upsert({ where: { id: row.id }, update, create })`
where both payloads write the same embedded fields. -/
def upsertById (row : MirrorRow) (m : List MirrorRow) : List MirrorRow :=
  if m.any (fun r => r.id = row.id) then
    m.map (fun r => if r.id = row.id then row else r)
  else m ++ [row]

/-- One iteration of the sync / tag-refresh upsert loop
(`src/unnamed/part_001:33-100`, `add-tag/route.ts:33-94`): resolve a
SKU collision by deleting the other row that owns the incoming item's
non-empty SKU, then upsert keyed by the remote ID. -/
def upsertItemStep (now : Int) (m : List MirrorRow) (item : CloverItem) : List MirrorRow :=
  let m1 :=
    match item.sku with
    | some s =>
      if s = "" then m
      else
        match findUniqueBySku s m with
        | some existingBySku =>
          if existingBySku.id ≠ item.id then deleteById existingBySku.id m else m
        | none => m
    | none => m
  upsertById (toRow now item) m1

/-- The sync upsert pass over the fetched items, in fetch order. -/
def syncUpserts (now : Int) (m : List MirrorRow) (items : List CloverItem) : List MirrorRow :=
  items.foldl (upsertItemStep now) m

/-- The full-sync handler (`src/unnamed/part_001:29-120`): upsert every
fetched item, then delete every mirror row whose ID is absent from the
fetched ID set.  The embedding is the success path: the fetch has
delivered `items`, so the run ends with status `success`. -/
def syncPOST (now : Int) (m : List MirrorRow) (items : List CloverItem) : List MirrorRow :=
  let cloverItemIds := items.map (fun item => item.id)
  let afterUpserts := syncUpserts now m items
  let allDbIds := afterUpserts.map (fun r => r.id)
  let idsToDelete := allDbIds.filter (fun i => !(cloverItemIds.contains i))
  afterUpserts.filter (fun r => !(idsToDelete.contains r.id))

/-! ## Missing-item detection
(`src/app/api/inventory/find-missing-items/route.ts`) -/

structure MissingItem where
  id : String
  name : String
  sku : Option String
deriving DecidableEq

/-- The `{ id, name, sku }` projection selected by the route's queries. -/
def missingProj (item : MirrorRow) : MissingItem :=
  { id := item.id, name := item.name, sku := item.sku }

/-- The inner loop of the route's UPC branch (lines 57-85): scan the
untagged mirror items for one CSV value, skipping already-matched IDs,
trying the SKU first and the code second. -/
def upcScanItems (searchUPC : String) (itemsWithoutTag : List MirrorRow)
    (st : List MissingItem × List String) : List MissingItem × List String :=
  itemsWithoutTag.foldl (fun st item =>
    if st.2.contains item.id then st
    else if fuzzyMatchUPC item.sku (some searchUPC) then
      (st.1 ++ [missingProj item], st.2 ++ [item.id])
    else if fuzzyMatchUPC item.code (some searchUPC) then
      (st.1 ++ [missingProj item], st.2 ++ [item.id])
    else st) st

/-- The route's UPC branch (lines 34-87): all mirror items not carrying
the tag, fuzzy-matched against each CSV value; values that are empty
after trimming are skipped. -/
def findMissingByUPC (mirror : List MirrorRow) (tagId : String) (upcs : List String) :
    List MissingItem :=
  let allItemsWithoutTag := mirror.filter (fun r => !(r.tags.contains tagId))
  (upcs.foldl (fun st searchUPC =>
    if jsTrim searchUPC = "" then st
    else upcScanItems searchUPC allItemsWithoutTag st) ([], [])).1

/-- Deduplication by id, as the route's
`new Map(allItems.map(item => [item.id, item])).values()` (lines
116-118): one entry per id, at first-occurrence position (the entries
carrying one id are all equal, being projections of the same mirror
row). -/
def dedupById (l : List MissingItem) : List MissingItem :=
  (l.foldl (fun (acc : List MissingItem × List String) item =>
    if acc.2.contains item.id then acc
    else (acc.1 ++ [item], acc.2 ++ [item.id])) ([], [])).1

/-- The route's name branch (lines 88-119): per CSV name, the untagged
mirror items whose name contains it case-insensitively, concatenated
then deduplicated by id. -/
def findMissingByName (mirror : List MirrorRow) (tagId : String) (names : List String) :
    List MissingItem :=
  let allItems := names.foldl (fun acc searchName =>
    acc ++ (mirror.filter (fun r =>
      jsIncludes (lowerStr r.name) (lowerStr searchName) && !(r.tags.contains tagId))).map
        missingProj) []
  dedupById allItems

structure FindMissingRequest where
  tagId : Option String
  upcs : Option (List String)
  names : Option (List String)

inductive FindMissingResponse where
  | badRequest (message : String)
  | ok (items : List MissingItem)
deriving DecidableEq

/-- The name branch guard: runs only for a present non-empty `names`
array; otherwise `missingItems` keeps its `[]` initialisation. -/
def findMissingNameBranch (mirror : List MirrorRow) (tagId : String)
    (names : Option (List String)) : List MissingItem :=
  match names with
  | some ns => if 0 < ns.length then findMissingByName mirror tagId ns else []
  | none => []

/-- `POST /api/inventory/find-missing-items` (lines 7-137): validation,
then the UPC branch when `upcs` is a non-empty array, else the name
branch. -/
def findMissingPOST (mirror : List MirrorRow) (req : FindMissingRequest) :
    FindMissingResponse :=
  match req.tagId with
  | none => FindMissingResponse.badRequest "tagId is required"
  | some tagId =>
    if tagId = "" then FindMissingResponse.badRequest "tagId is required"
    else if req.upcs = none ∧ req.names = none then
      FindMissingResponse.badRequest "Either upcs or names array is required"
    else
      match req.upcs with
      | some us =>
        if 0 < us.length then FindMissingResponse.ok (findMissingByUPC mirror tagId us)
        else FindMissingResponse.ok (findMissingNameBranch mirror tagId req.names)
      | none => FindMissingResponse.ok (findMissingNameBranch mirror tagId req.names)

/-- The client-side filter in `findMissingItems`
(`src/components/ItemsTable.tsx`, `AddInventoryModal`): drop every
reported item already present in the tag-scoped remote item list. -/
def trulyMissing (missingItemsFromApi : List MissingItem) (cloverItems : List CloverItem) :
    List MissingItem :=
  let itemsWithTagIds := cloverItems.map (fun item => item.id)
  missingItemsFromApi.filter (fun item => !(itemsWithTagIds.contains item.id))

/-- End-to-end missing-tag detection, UPC method: server UPC branch then
the client-side exclusion of the tag-scoped remote set. -/
def missingTagDetectionUPC (mirror : List MirrorRow) (tagId : String) (upcs : List String)
    (cloverItems : List CloverItem) : List MissingItem :=
  trulyMissing (findMissingByUPC mirror tagId upcs) cloverItems

/-- End-to-end missing-tag detection, name method. -/
def missingTagDetectionName (mirror : List MirrorRow) (tagId : String) (names : List String)
    (cloverItems : List CloverItem) : List MissingItem :=
  trulyMissing (findMissingByName mirror tagId names) cloverItems

/-! ## CSV matching (`AddInventoryModal.matchItems`) -/

inductive RefMethod where
  | upc
  | name
deriving DecidableEq

structure MatchedItem where
  csvRow : Row
  item : CloverItem
  currentStock : Int
  newStock : Int
  calculatedStock : Int
deriving DecidableEq

structure UnmatchedItem where
  csvRow : Row
  searchValue : String
  referenceMethod : RefMethod
deriving DecidableEq

/-- `matchItems` (`src/components/ItemsTable.tsx`, `AddInventoryModal`):
per CSV row, find the first tag-scoped item whose trimmed SKU equals the
trimmed identifier (falling back to the code field), or whose name
matches bidirectionally under the name method; matched rows get
`delta = calculateStock(row)`, `currentStock` by the itemStock-first
rule, and `newStock = currentStock + delta`. -/
def matchRowStep (referenceMethod : RefMethod) (upcColumn nameColumn stockColumn : String)
    (selectedVendorConfig : String) (items : List CloverItem)
    (st : List MatchedItem × List UnmatchedItem) (row : Row) :
    List MatchedItem × List UnmatchedItem :=
    let searchValue :=
      match referenceMethod with
      | RefMethod.upc => (rowGet row upcColumn).map jsTrim
      | RefMethod.name => (rowGet row nameColumn).map jsTrim
    match searchValue with
    | none => st
    | some sv =>
      if sv = "" then st
      else
        let firstPass := items.find? (fun item =>
          match referenceMethod with
          | RefMethod.upc => item.sku.map jsTrim = some sv
          | RefMethod.name =>
            jsIncludes (lowerStr item.name) (lowerStr sv) ||
              jsIncludes (lowerStr sv) (lowerStr item.name))
        let found : Option CloverItem :=
          match firstPass, referenceMethod with
          | none, RefMethod.upc =>
            items.find? (fun item : CloverItem => item.code.map jsTrim = some sv)
          | r, _ => r
        match found with
        | some item =>
          let rowForCalculation :=
            if selectedVendorConfig = "default" ∧ stockColumn ≠ "" then
              ("_stockColumnName", stockColumn) :: row
            else row
          let calculatedStock :=
            (getVendorConfig selectedVendorConfig).calculateStock rowForCalculation
          let currentStock : Int :=
            match item.itemStock with
            | some stock => stock.stockCount
            | none =>
              match item.stockCount with
              | some v => v
              | none => 0
          let newStock := currentStock + calculatedStock
          let entry : MatchedItem :=
            { csvRow := row, item := item, currentStock := currentStock,
              newStock := newStock, calculatedStock := calculatedStock }
          (st.1 ++ [entry], st.2)
        | none =>
          let entry : UnmatchedItem :=
            { csvRow := row, searchValue := sv, referenceMethod := referenceMethod }
          (st.1, st.2 ++ [entry])

/-- `matchItems` as the fold of `matchRowStep` over the CSV rows, from
the empty matched/unmatched accumulators. -/
def matchItems (referenceMethod : RefMethod) (upcColumn nameColumn stockColumn : String)
    (selectedVendorConfig : String) (csvData : List Row) (items : List CloverItem) :
    List MatchedItem × List UnmatchedItem :=
  csvData.foldl
    (matchRowStep referenceMethod upcColumn nameColumn stockColumn selectedVendorConfig items)
    ([], [])

/-- The spec's stock-derivation rule (§4.2 design note), stated in its
own words for comparison with the code paths: prefer the expanded
`itemStock.stockCount`; fall back to the root-level `stockCount` only
when the expansion is absent; default 0 when both are absent. -/
def specPreferredStock (item : CloverItem) : Int :=
  (item.itemStock.map (fun stock => stock.stockCount)).getD (item.stockCount.getD 0)

/-! ## Bulk Stock Applier (`AddInventoryModal.handleProcessUpdates`) -/

inductive RowOutcome where
  | success
  | failure (msg : String)
deriving DecidableEq

/-- The applier's 429 sniff on a failed row:
`err.message.includes("429") || err.message.includes("Too Many Requests")`. -/
def is429Error (msg : String) : Bool :=
  jsIncludes msg "429" || jsIncludes msg "Too Many Requests"

structure SuccessEntry where
  itemId : String
  itemName : String
  currentStock : Int
  addedStock : Int
  newStock : Int
deriving DecidableEq

structure FailureEntry where
  itemId : String
  itemName : String
  error : String
deriving DecidableEq

structure ProcessReport where
  successCount : Nat
  errorCount : Nat
  successes : List SuccessEntry
  errors : List FailureEntry
  delays : List Nat
deriving DecidableEq

/-- `handleProcessUpdates` (`src/components/ItemsTable.tsx`,
`AddInventoryModal`): sequential per-row updates; each row is paired
with its update-call outcome.  `delays` records the milliseconds slept
after each row (0 = no sleep): a successful non-final row sleeps 200 ms;
a failed row sleeps 3000 ms when its error message mentions 429, else
nothing. -/
def handleProcessUpdates : List (MatchedItem × RowOutcome) → ProcessReport
  | [] => { successCount := 0, errorCount := 0, successes := [], errors := [], delays := [] }
  | (matched, outcome) :: rest =>
    let r := handleProcessUpdates rest
    match outcome with
    | RowOutcome.success =>
      let entry : SuccessEntry :=
        { itemId := matched.item.id, itemName := matched.item.name,
          currentStock := matched.currentStock, addedStock := matched.calculatedStock,
          newStock := matched.newStock }
      { successCount := r.successCount + 1
        errorCount := r.errorCount
        successes := entry :: r.successes
        errors := r.errors
        delays := (if rest.isEmpty then 0 else 200) :: r.delays }
    | RowOutcome.failure msg =>
      let entry : FailureEntry :=
        { itemId := matched.item.id, itemName := matched.item.name, error := msg }
      { successCount := r.successCount
        errorCount := r.errorCount + 1
        successes := r.successes
        errors := entry :: r.errors
        delays := (if is429Error msg then 3000 else 0) :: r.delays }

/-- The delay the source actually schedules after one row, given its
outcome and whether it is the last row. -/
def delayAfter (outcome : RowOutcome) (isLast : Bool) : Nat :=
  match outcome with
  | RowOutcome.success => if isLast then 0 else 200
  | RowOutcome.failure msg => if is429Error msg then 3000 else 0

/-- The full delay schedule of a batch, row by row. -/
def expectedDelays : List (MatchedItem × RowOutcome) → List Nat
  | [] => []
  | (_, outcome) :: rest => delayAfter outcome rest.isEmpty :: expectedDelays rest

/-! ## `POST /api/inventory/update-stock`
(`src/app/api/inventory/update-stock/route.ts`) -/

structure UpdateStockRequest where
  itemId : Option String
  stockCount : Option Int

inductive UpdateStockResponse where
  | badRequest (message : String)
  | serverError (message : String)
  | ok
deriving DecidableEq

/-- The update-stock handler: validate, call the remote
`updateItemStock` (its outcome is the `remote` argument: `.error e`
models a thrown error, including exhausted 429 retries and 400/500),
and only on remote success write the mirror row.  A missing mirror row
makes the Prisma update throw, caught by the same handler. -/
def updateStockPOST (remote : Except String Unit) (mirror : List MirrorRow)
    (req : UpdateStockRequest) : UpdateStockResponse × List MirrorRow :=
  match req.itemId with
  | none => (UpdateStockResponse.badRequest "itemId and stockCount are required", mirror)
  | some itemId =>
    if itemId = "" then
      (UpdateStockResponse.badRequest "itemId and stockCount are required", mirror)
    else
      match req.stockCount with
      | none => (UpdateStockResponse.badRequest "itemId and stockCount are required", mirror)
      | some sc =>
        if sc < 0 then
          (UpdateStockResponse.badRequest "stockCount must be a non-negative number", mirror)
        else
          match remote with
          | Except.error e => (UpdateStockResponse.serverError e, mirror)
          | Except.ok _ =>
            if mirror.any (fun r => r.id = itemId) then
              (UpdateStockResponse.ok,
                mirror.map (fun r => if r.id = itemId then { r with stockCount := sc } else r))
            else (UpdateStockResponse.serverError "Failed to update stock", mirror)

/-! ## Concrete fixtures for witnesses and counterexamples -/

/-- Remote item X of the C1 counterexample: id "1", sku "a". -/
def cItemX : CloverItem :=
  { id := "1", name := "X", price := 0, cost := none, stockCount := none,
    available := none, code := none, sku := some "a", modifiedTime := none,
    itemStock := none, categories := [], tags := [] }

/-- Remote item Y of the C1 counterexample: id "2", also sku "a". -/
def cItemY : CloverItem :=
  { id := "2", name := "Y", price := 0, cost := none, stockCount := none,
    available := none, code := none, sku := some "a", modifiedTime := none,
    itemStock := none, categories := [], tags := [] }

/-- A mirror row owning sku "111" under id "X". -/
def wRowX : MirrorRow :=
  { id := "X", name := "Old", price := 0, sku := some "111", code := none,
    cost := none, stockCount := 0, available := true, categoryId := none,
    categoryName := none, tags := [], modifiedTime := 0, lastSynced := 0 }

/-- An incoming item with id "Y" carrying the same sku "111". -/
def wItemY : CloverItem :=
  { id := "Y", name := "New", price := 100, cost := none, stockCount := some 5,
    available := some true, code := none, sku := some "111", modifiedTime := some 1,
    itemStock := none, categories := [], tags := [] }

/-- An untagged mirror row with a zero-padded sku, for the C2 witness. -/
def mRowA : MirrorRow :=
  { id := "A", name := "Apple Juice", price := 100, sku := some "012345",
    code := none, cost := none, stockCount := 3, available := true,
    categoryId := none, categoryName := none, tags := ["t2"], modifiedTime := 0,
    lastSynced := 0 }

/-- A mirror row already carrying the target tag "t1". -/
def mRowB : MirrorRow :=
  { id := "B", name := "Banana Chips", price := 200, sku := some "99999",
    code := none, cost := none, stockCount := 7, available := true,
    categoryId := none, categoryName := none, tags := ["t1"], modifiedTime := 0,
    lastSynced := 0 }

/-- A tag-scoped remote item, for C5/C6 fixtures. -/
def wItem1 : CloverItem :=
  { id := "I1", name := "Widget", price := 100, cost := none, stockCount := some 5,
    available := some true, code := some "123", sku := some "123",
    modifiedTime := some 1, itemStock := none, categories := [], tags := [] }

def wItem2 : CloverItem :=
  { id := "I2", name := "Gadget", price := 300, cost := none, stockCount := some 0,
    available := some true, code := some "456", sku := some "456",
    modifiedTime := some 1, itemStock := some { stockCount := 9, quantity := 9 },
    categories := [], tags := [] }

def wMatched1 : MatchedItem :=
  { csvRow := [("UPC", "123"), ("Qty", "2")], item := wItem1, currentStock := 5,
    newStock := 7, calculatedStock := 2 }

def wMatched2 : MatchedItem :=
  { csvRow := [("UPC", "456"), ("Qty", "1")], item := wItem2, currentStock := 9,
    newStock := 10, calculatedStock := 1 }


end Clover
namespace Clover

/-! ## Sanity examples for the normalizer -/

example : fuzzyMatchUPC (some "012345") (some "12345") = true := by decide
example : fuzzyMatchUPC (some "12345") (some "99999") = false := by decide
example : fuzzyMatchUPC (some "") (some "123") = false := by decide

/-- A nonempty string has positive length. -/
theorem strLengthPos (s : String) (h : s ≠ "") : 0 < s.length := by
  cases s with
  | mk l =>
    cases l with
    | nil => exact absurd rfl h
    | cons c t =>
      show 0 < (String.mk (c :: t)).length
      simp [String.length]

end Clover

/-- C8: `fuzzyMatchUPC(a, b) = fuzzyMatchUPC(b, a)` for all identifier
strings `a` and `b`, including `null`/empty and punctuation-only inputs:
the layered comparison (normalized equality, leading-zero-stripped
equality, then substring containment with length difference ≤ 2) is
symmetric. -/
theorem fuzzyMatchUPC_symm (a b : Option String) :
    Clover.fuzzyMatchUPC a b = Clover.fuzzyMatchUPC b a := by
  unfold Clover.fuzzyMatchUPC
  set n1 := Clover.normalizeUPC a with hn1
  set n2 := Clover.normalizeUPC b with hn2
  by_cases h1 : n1 = ""
  · simp [h1]
  · by_cases h2 : n2 = ""
    · simp [h2]
    · have hne : ¬ (n1 = "" ∨ n2 = "") := by tauto
      have hne' : ¬ (n2 = "" ∨ n1 = "") := by tauto
      rw [if_neg hne, if_neg hne']
      by_cases heq : n1 = n2
      · simp [heq]
      · have heq' : ¬ n2 = n1 := fun h => heq (Eq.symm h)
        rw [if_neg heq, if_neg heq']
        have l1 : 0 < n1.length := Clover.strLengthPos n1 h1
        have l2 : 0 < n2.length := Clover.strLengthPos n2 h2
        rw [if_pos (And.intro l1 l2), if_pos (And.intro l2 l1)]
        set c1 := Clover.removeLeadingZeros n1
        set c2 := Clover.removeLeadingZeros n2
        by_cases hc : c1 = c2
        · simp [hc]
        · have hc' : ¬ c2 = c1 := fun h => hc (Eq.symm h)
          rw [if_neg hc, if_neg hc']
          by_cases hsub : Clover.jsIncludes c1 c2 = true ∨ Clover.jsIncludes c2 c1 = true
          · have hsub' : Clover.jsIncludes c2 c1 = true ∨ Clover.jsIncludes c1 c2 = true :=
              Or.symm hsub
            rw [if_pos hsub, if_pos hsub']
            have habs : ((c1.length : Int) - (c2.length : Int)).natAbs
                = ((c2.length : Int) - (c1.length : Int)).natAbs := by omega
            rw [habs]
          · have hsub' : ¬ (Clover.jsIncludes c2 c1 = true ∨ Clover.jsIncludes c1 c2 = true) :=
              fun h => hsub (Or.symm h)
            rw [if_neg hsub, if_neg hsub']

namespace Clover


/-! Sanity examples from the spec's §8 test table. -/

example : vendorCoreMark.calculateStock
    [("Qty", "10"), ("Unit Size", "6"), ("Broken Case", "")] = 60 := by decide
example : vendorCoreMark.calculateStock
    [("Qty", "10"), ("Unit Size", "6"), ("Broken Case", "✔")] = 10 := by decide
example : vendorWalmart.calculateStock
    [("Status", "Shopped"), ("Quantity", "5")] = 5 := by decide
example : vendorWalmart.calculateStock
    [("Status", "Pending"), ("Quantity", "5")] = 0 := by decide

end Clover

namespace Clover

/-! ## Helper lemmas about rows and JS fallbacks -/

theorem rowGet_some_mem (row : Row) (k s : String) (h : rowGet row k = some s) :
    ∃ p ∈ row, p.2 = s := by
  unfold rowGet at h
  cases hf : List.find? (fun p => p.1 = k) row with
  | none => rw [hf] at h; simp at h
  | some p =>
    rw [hf] at h
    simp at h
    exact ⟨p, List.mem_of_find?_eq_some hf, h⟩

/-- If every value of a `||`-fallback chain parses to `NaN` and the
final literal default parses to `0`-or-`NaN`, `parseInt(..) || 0` is 0. -/
theorem parse_jsOrStr_zero (o : Option String) (rest : String)
    (ho : ∀ s, o = some s → jsParseInt s = none)
    (hrest : jsParseIntOr rest 0 = 0) :
    jsParseIntOr (jsOrStr o rest) 0 = 0 := by
  cases o with
  | none => simpa [jsOrStr] using hrest
  | some s =>
    by_cases hs : s = ""
    · simpa [jsOrStr, hs] using hrest
    · simp [jsOrStr, hs, jsParseIntOr, ho s rfl, jsOrInt]

theorem parse_rowGet_zero (row : Row) (k : String) (rest : String)
    (hrow : ∀ p ∈ row, jsParseInt p.2 = none)
    (hrest : jsParseIntOr rest 0 = 0) :
    jsParseIntOr (jsOrStr (rowGet row k) rest) 0 = 0 := by
  refine parse_jsOrStr_zero _ _ (fun s hs => ?_) hrest
  obtain ⟨p, hp, hps⟩ := rowGet_some_mem row k s hs
  exact hps ▸ hrow p hp

end Clover

/-- C7 counterexample: the claim "`calculateStock(row)` returns an
integer ≥ 0" fails on the code — the Kehe rule applied to a row whose
`ShipQuantity` is `"-5"` returns `-5`. -/
theorem vendor_rule_nonneg_counterexample :
    ¬ (∀ config ∈ Clover.vendorConfigs, ∀ row : Clover.Row,
        0 ≤ config.calculateStock row) := by
  intro h
  have hmem : Clover.vendorKehe ∈ Clover.vendorConfigs := by
    simp [Clover.vendorConfigs]
  have h5 := h Clover.vendorKehe hmem [("ShipQuantity", "-5")]
  have hval : Clover.vendorKehe.calculateStock [("ShipQuantity", "-5")] = (-5 : Int) := by
    decide
  rw [hval] at h5
  omega

/-- C7 (amended): every registered vendor rule is total (it is a Lean
function on arbitrary string-keyed rows) and maps invalid or missing
input to 0: whenever no value of the row parses as an integer
(`parseInt` gives `NaN`), `calculateStock(row) = 0`.  The original
claim's "integer ≥ 0" is refuted above: a CSV row carrying a negative
numeral produces a negative delta. -/
theorem vendor_rules_invalid_input_zero :
    ∀ config ∈ Clover.vendorConfigs, ∀ row : Clover.Row,
      (∀ p ∈ row, Clover.jsParseInt p.2 = none) →
      config.calculateStock row = 0 := by
  intro config hc row hrow
  have hkey : ∀ k s, Clover.rowGet row k = some s → Clover.jsParseInt s = none := by
    intro k s hs
    obtain ⟨p, hp, hps⟩ := Clover.rowGet_some_mem row k s hs
    exact hps ▸ hrow p hp
  simp only [Clover.vendorConfigs, List.mem_cons, List.not_mem_nil, or_false] at hc
  rcases hc with rfl | rfl | rfl | rfl
  · -- Kehe
    simp only [Clover.vendorKehe]
    exact Clover.parse_rowGet_zero row _ _ hrow
      (Clover.parse_rowGet_zero row _ _ hrow
        (Clover.parse_rowGet_zero row _ _ hrow (by decide)))
  · -- CoreMark
    simp only [Clover.vendorCoreMark]
    have hq : Clover.jsParseIntOr
        (Clover.jsOrStr (Clover.rowGet row "Qty")
          (Clover.jsOrStr (Clover.rowGet row "Qty") "0")) 0 = 0 :=
      Clover.parse_rowGet_zero row _ _ hrow
        (Clover.parse_rowGet_zero row _ _ hrow (by decide))
    rw [hq]
    split
    · rfl
    · exact zero_mul _
  · -- Walmart
    simp only [Clover.vendorWalmart]
    split
    · rfl
    · exact Clover.parse_rowGet_zero row _ _ hrow
        (Clover.parse_rowGet_zero row _ _ hrow (by decide))
  · -- default
    simp only [Clover.defaultVendor]
    cases hcol : Clover.rowGet row "_stockColumnName" with
    | none => rfl
    | some col =>
      by_cases hc0 : col = ""
      · simp [hc0]
      · simp only [if_neg hc0]
        cases hv : Clover.rowGet row col with
        | none => rfl
        | some v =>
          by_cases hv0 : v = ""
          · simp [hv0]
          · simp [hv0, hkey col v hv]

/-- C7 witness: the amended theorem applied to the Kehe rule on a row
with an unparseable quantity. -/
theorem vendor_rules_invalid_input_zero_witness :
    Clover.vendorKehe ∈ Clover.vendorConfigs ∧
      Clover.vendorKehe.calculateStock [("ShipQuantity", "abc")] = 0 :=
  ⟨by simp [Clover.vendorConfigs],
   vendor_rules_invalid_input_zero Clover.vendorKehe (by simp [Clover.vendorConfigs])
     [("ShipQuantity", "abc")] (by decide)⟩

/-- C4: `updateItemStock` retries an HTTP 429 up to 3 times, with
backoff waits of 2000 ms, 4000 ms, then 6000 ms, before failing
permanently with the generic upstream error; on an HTTP 400 it fails
immediately with the distinguishable bad-request error and performs no
retry and no wait; and a 429 answered by a success on the next attempt
succeeds after the single 2000 ms backoff. -/
theorem updateItemStock_retry_behavior :
    (Clover.updateItemStock (fun _ => 429) 0 3
        = (Clover.StockUpdateOutcome.upstreamError 429, [2000, 4000, 6000]))
    ∧ (∀ resp : Nat → Nat, resp 0 = 400 →
        Clover.updateItemStock resp 0 3 = (Clover.StockUpdateOutcome.badRequest, []))
    ∧ (∀ resp : Nat → Nat, resp 0 = 429 → resp 1 = 200 →
        Clover.updateItemStock resp 0 3 = (Clover.StockUpdateOutcome.ok, [2000])) := by
  refine ⟨?_, ?_, ?_⟩
  · rw [Clover.updateItemStock, Clover.updateItemStock, Clover.updateItemStock,
      Clover.updateItemStock]
    norm_num
  · intro resp h0
    rw [Clover.updateItemStock]
    simp [h0]
  · intro resp h0 h1
    rw [Clover.updateItemStock, Clover.updateItemStock]
    simp [h0, h1]

/-- C4 witness: the theorem's hypothesised parts applied to concrete
response sequences. -/
theorem updateItemStock_retry_behavior_witness :
    Clover.updateItemStock (fun n => if n = 0 then 400 else 200) 0 3
        = (Clover.StockUpdateOutcome.badRequest, [])
    ∧ Clover.updateItemStock (fun n => if n = 0 then 429 else 200) 0 3
        = (Clover.StockUpdateOutcome.ok, [2000]) :=
  ⟨updateItemStock_retry_behavior.2.1 (fun n => if n = 0 then 400 else 200) rfl,
   updateItemStock_retry_behavior.2.2 (fun n => if n = 0 then 429 else 200) rfl rfl⟩

namespace Clover

/-! ## Lemmas about the mirror primitives -/

theorem find?_id_map_self (row : MirrorRow) (t : List MirrorRow)
    (hany : t.any (fun r => r.id = row.id) = true) :
    List.find? (fun r => r.id = row.id)
      (t.map (fun r => if r.id = row.id then row else r)) = some row := by
  induction t with
  | nil => simp at hany
  | cons a t ih =>
    by_cases ha : a.id = row.id
    · rw [List.map_cons, if_pos ha]
      rw [List.find?_cons_of_pos _ (by simp)]
    · rw [List.map_cons, if_neg ha]
      rw [List.find?_cons_of_neg _ (by simp [ha])]
      apply ih
      rcases List.any_eq_true.mp hany with ⟨r, hr, hrid⟩
      rcases List.mem_cons.mp hr with rfl | hrt
      · exact absurd (by simpa using hrid) ha
      · exact List.any_eq_true.mpr ⟨r, hrt, hrid⟩

theorem find?_id_map_other (id : String) (row : MirrorRow) (t : List MirrorRow)
    (hid : id ≠ row.id) :
    List.find? (fun r => r.id = id)
      (t.map (fun r => if r.id = row.id then row else r))
      = List.find? (fun r => r.id = id) t := by
  induction t with
  | nil => rfl
  | cons a t ih =>
    by_cases ha : a.id = row.id
    · rw [List.map_cons, if_pos ha]
      rw [List.find?_cons_of_neg _ (by simp; exact fun h => hid h.symm)]
      rw [List.find?_cons_of_neg _ (by simp; exact fun h => hid (by rw [← h, ha]))]
      exact ih
    · rw [List.map_cons, if_neg ha]
      by_cases haid : a.id = id
      · rw [List.find?_cons_of_pos _ (by simp [haid]),
          List.find?_cons_of_pos _ (by simp [haid])]
      · rw [List.find?_cons_of_neg _ (by simp [haid]),
          List.find?_cons_of_neg _ (by simp [haid])]
        exact ih

theorem findUniqueById_upsertById_self (row : MirrorRow) (m : List MirrorRow) :
    findUniqueById row.id (upsertById row m) = some row := by
  unfold upsertById findUniqueById
  by_cases hany : m.any (fun r => r.id = row.id) = true
  · rw [if_pos hany]
    exact find?_id_map_self row m hany
  · rw [if_neg hany, List.find?_append]
    have hnone : m.find? (fun r => decide (r.id = row.id)) = none := by
      rw [List.find?_eq_none]
      intro r hr
      simp only [decide_eq_true_eq]
      intro h
      exact hany (List.any_eq_true.mpr ⟨r, hr, by simp [h]⟩)
    rw [hnone]
    simp

theorem findUniqueById_upsertById_other (id : String) (row : MirrorRow) (m : List MirrorRow)
    (hid : id ≠ row.id) :
    findUniqueById id (upsertById row m) = findUniqueById id m := by
  unfold upsertById findUniqueById
  by_cases hany : m.any (fun r => r.id = row.id) = true
  · rw [if_pos hany]
    exact find?_id_map_other id row m hid
  · rw [if_neg hany, List.find?_append]
    cases hf : m.find? (fun r => decide (r.id = id)) with
    | some r => simp
    | none =>
      have : ¬ (row.id = id) := fun h => hid h.symm
      simp [this]

theorem findUniqueById_deleteById_self (id : String) (m : List MirrorRow) :
    findUniqueById id (deleteById id m) = none := by
  unfold deleteById findUniqueById
  rw [List.find?_eq_none]
  intro r hr
  have := List.of_mem_filter hr
  simpa using this

theorem findUniqueById_deleteById_other (id id' : String) (m : List MirrorRow)
    (hid : id ≠ id') :
    findUniqueById id (deleteById id' m) = findUniqueById id m := by
  unfold deleteById findUniqueById
  induction m with
  | nil => rfl
  | cons a t ih =>
    by_cases ha : a.id = id'
    · rw [List.filter_cons_of_neg (by simp [ha])]
      rw [List.find?_cons_of_neg _ (by simp; exact fun h => hid (by rw [← h, ha]))]
      exact ih
    · rw [List.filter_cons_of_pos (by simp [ha])]
      by_cases haid : a.id = id
      · rw [List.find?_cons_of_pos _ (by simp [haid]),
          List.find?_cons_of_pos _ (by simp [haid])]
      · rw [List.find?_cons_of_neg _ (by simp [haid]),
          List.find?_cons_of_neg _ (by simp [haid])]
        exact ih

theorem mem_upsertById (row r : MirrorRow) (m : List MirrorRow)
    (h : r ∈ upsertById row m) : r = row ∨ r ∈ m := by
  unfold upsertById at h
  by_cases hany : m.any (fun x => x.id = row.id) = true
  · rw [if_pos hany] at h
    rcases List.mem_map.mp h with ⟨a, ha, hr⟩
    by_cases haid : a.id = row.id
    · left; rw [if_pos haid] at hr; exact hr.symm
    · right; rw [if_neg haid] at hr; exact hr ▸ ha
  · rw [if_neg hany] at h
    rcases List.mem_append.mp h with hm | hr
    · right; exact hm
    · left; simpa using hr

theorem mem_deleteById (id : String) (r : MirrorRow) (m : List MirrorRow)
    (h : r ∈ deleteById id m) : r ∈ m ∧ r.id ≠ id := by
  unfold deleteById at h
  have := List.of_mem_filter h
  exact ⟨List.mem_of_mem_filter h, by simpa using this⟩

theorem findUniqueById_some (id : String) (m : List MirrorRow) (r : MirrorRow)
    (h : findUniqueById id m = some r) : r ∈ m ∧ r.id = id := by
  unfold findUniqueById at h
  refine ⟨List.mem_of_find?_eq_some h, ?_⟩
  have := List.find?_some h
  simpa using this

theorem findUniqueBySku_some (s : String) (m : List MirrorRow) (r : MirrorRow)
    (h : findUniqueBySku s m = some r) : r ∈ m ∧ r.sku = some s := by
  unfold findUniqueBySku at h
  refine ⟨List.mem_of_find?_eq_some h, ?_⟩
  have := List.find?_some h
  simpa using this

theorem findUniqueBySku_none (s : String) (m : List MirrorRow)
    (h : findUniqueBySku s m = none) : ∀ r ∈ m, r.sku ≠ some s := by
  unfold findUniqueBySku at h
  intro r hr
  have := List.find?_eq_none.mp h r hr
  simpa using this

/-- Two members of a mirror with `Nodup` ids and equal ids are equal. -/
theorem mem_id_unique (m : List MirrorRow) (hids : (m.map (fun r => r.id)).Nodup)
    (r1 r2 : MirrorRow) (h1 : r1 ∈ m) (h2 : r2 ∈ m) (hid : r1.id = r2.id) : r1 = r2 := by
  induction m with
  | nil => simp at h1
  | cons a t ih =>
    simp only [List.map_cons, List.nodup_cons] at hids
    rcases List.mem_cons.mp h1 with rfl | h1t
    · rcases List.mem_cons.mp h2 with rfl | h2t
      · rfl
      · exact absurd (hid ▸ List.mem_map.mpr ⟨r2, h2t, rfl⟩) hids.1
    · rcases List.mem_cons.mp h2 with rfl | h2t
      · exact absurd (hid ▸ List.mem_map.mpr ⟨r1, h1t, rfl⟩) hids.1
      · exact ih hids.2 h1t h2t

theorem nodup_ids_upsertById (row : MirrorRow) (m : List MirrorRow)
    (hids : (m.map (fun r => r.id)).Nodup) :
    ((upsertById row m).map (fun r => r.id)).Nodup := by
  unfold upsertById
  by_cases hany : m.any (fun r => r.id = row.id) = true
  · rw [if_pos hany]
    have : (m.map (fun r => if r.id = row.id then row else r)).map (fun r => r.id)
        = m.map (fun r => r.id) := by
      rw [List.map_map]
      apply List.map_congr_left
      intro r hr
      by_cases h : r.id = row.id
      · simp [h]
      · simp [h]
    rw [this]
    exact hids
  · rw [if_neg hany, List.map_append]
    rw [List.nodup_append]
    refine ⟨hids, by simp, ?_⟩
    intro x hx
    simp only [List.map_cons, List.map_nil, List.mem_singleton]
    intro hxr
    rcases List.mem_map.mp hx with ⟨r, hr, hrid⟩
    exact hany (List.any_eq_true.mpr ⟨r, hr, by simp [hrid, hxr]⟩)

theorem nodup_ids_deleteById (id : String) (m : List MirrorRow)
    (hids : (m.map (fun r => r.id)).Nodup) :
    ((deleteById id m).map (fun r => r.id)).Nodup := by
  unfold deleteById
  exact List.Nodup.sublist (List.Sublist.map _ (List.filter_sublist m)) hids

theorem nodup_ids_filter (p : MirrorRow → Bool) (m : List MirrorRow)
    (hids : (m.map (fun r => r.id)).Nodup) :
    ((m.filter p).map (fun r => r.id)).Nodup :=
  List.Nodup.sublist (List.Sublist.map _ (List.filter_sublist m)) hids

/-- `find?` by id commutes with a filter that keeps the found element,
when ids are unique. -/
theorem findUniqueById_filter (id : String) (m : List MirrorRow) (row : MirrorRow)
    (p : MirrorRow → Bool)
    (hids : (m.map (fun r => r.id)).Nodup)
    (h : findUniqueById id m = some row) (hp : p row = true) :
    findUniqueById id (m.filter p) = some row := by
  unfold findUniqueById at h ⊢
  induction m with
  | nil => simp at h
  | cons a t ih =>
    simp only [List.map_cons, List.nodup_cons] at hids
    by_cases haid : a.id = id
    · rw [List.find?_cons_of_pos _ (by simp [haid])] at h
      have ha : a = row := by simpa using h
      subst ha
      rw [List.filter_cons_of_pos hp, List.find?_cons_of_pos _ (by simp [haid])]
    · rw [List.find?_cons_of_neg _ (by simp [haid])] at h
      by_cases hpa : p a = true
      · rw [List.filter_cons_of_pos hpa, List.find?_cons_of_neg _ (by simp [haid])]
        exact ih hids.2 h
      · rw [List.filter_cons_of_neg (by simpa using hpa)]
        exact ih hids.2 h

end Clover


/-- C9: the update-stock endpoint is atomic with respect to the mirror —
whenever the remote `updateItemStock` call throws (exhausted 429
retries, 400, 500), the handler returns a failure response and the
mirror is left entirely unchanged (in particular the row's
`stockCount`). -/
theorem update_stock_atomic (e : String) (mirror : List Clover.MirrorRow)
    (req : Clover.UpdateStockRequest) :
    (Clover.updateStockPOST (Except.error e) mirror req).2 = mirror
    ∧ (Clover.updateStockPOST (Except.error e) mirror req).1
        ≠ Clover.UpdateStockResponse.ok := by
  unfold Clover.updateStockPOST
  cases req.itemId with
  | none => exact ⟨rfl, by simp⟩
  | some itemId =>
    by_cases h1 : itemId = ""
    · simp [h1]
    · simp only [if_neg h1]
      cases req.stockCount with
      | none => exact ⟨rfl, by simp⟩
      | some sc =>
        by_cases h2 : sc < 0
        · simp [h2]
        · simp [h2]

/-- C10: when a find-missing-items request supplies a non-empty `upcs`
array, the result is the UPC branch alone, and the `names` value is
entirely ignored (replacing it changes nothing). -/
theorem find_missing_upcs_branch_sole (mirror : List Clover.MirrorRow) (t : String)
    (us : List String) (ns ns' : Option (List String))
    (ht : t ≠ "") (hus : us ≠ []) :
    Clover.findMissingPOST mirror { tagId := some t, upcs := some us, names := ns }
      = Clover.FindMissingResponse.ok (Clover.findMissingByUPC mirror t us)
    ∧ Clover.findMissingPOST mirror { tagId := some t, upcs := some us, names := ns }
      = Clover.findMissingPOST mirror { tagId := some t, upcs := some us, names := ns' } := by
  have hlen : 0 < us.length := List.length_pos.mpr hus
  constructor
  · unfold Clover.findMissingPOST
    simp [ht, hlen]
  · unfold Clover.findMissingPOST
    simp [ht, hlen]

/-- C10 witness: with both arrays non-empty, swapping the names for
`none` leaves the response unchanged, and it is the UPC branch. -/
theorem find_missing_upcs_branch_sole_witness :
    Clover.findMissingPOST [Clover.mRowA]
        { tagId := some "t1", upcs := some ["12345"], names := some ["zzz"] }
      = Clover.findMissingPOST [Clover.mRowA]
        { tagId := some "t1", upcs := some ["12345"], names := none } := by
  have h := find_missing_upcs_branch_sole [Clover.mRowA] "t1" ["12345"]
    (some ["zzz"]) none (by decide) (by decide)
  exact h.1.trans ((find_missing_upcs_branch_sole [Clover.mRowA] "t1" ["12345"]
    none (some ["zzz"]) (by decide) (by decide)).1).symm

/-- C5 (amended): the bulk stock applier sleeps 200 ms after each
*successful* per-row update call except the last row, not after failed
calls; after a failed call it sleeps 3000 ms when the error message
mentions a 429 ("429" or "Too Many Requests"), and nothing otherwise.
The original claim's "fixed ~200ms delay … regardless of each call's
outcome" is refuted below. -/
theorem bulk_apply_delay_schedule (rows : List (Clover.MatchedItem × Clover.RowOutcome)) :
    (Clover.handleProcessUpdates rows).delays = Clover.expectedDelays rows := by
  induction rows with
  | nil => rfl
  | cons hd rest ih =>
    obtain ⟨matched, outcome⟩ := hd
    cases outcome with
    | success =>
      simp [Clover.handleProcessUpdates, Clover.expectedDelays, Clover.delayAfter, ih]
    | failure msg =>
      simp [Clover.handleProcessUpdates, Clover.expectedDelays, Clover.delayAfter, ih]

/-- C5 counterexample: a two-row batch whose first call fails with a
non-429 error sleeps 0 ms — not ~200 ms — between the two successive
calls. -/
theorem bulk_apply_delay_counterexample :
    (Clover.handleProcessUpdates
        [(Clover.wMatched1, Clover.RowOutcome.failure "boom"),
         (Clover.wMatched2, Clover.RowOutcome.success)]).delays = [0, 0]
    ∧ (0 : Nat) ≠ 200 := by
  constructor
  · decide
  · decide

namespace Clover

/-- The inline stock expression shared by the three read paths equals
the spec's preference rule. -/
theorem stockMatch_eq_spec (item : CloverItem) :
    (match item.itemStock with
      | some stock => stock.stockCount
      | none =>
        match item.stockCount with
        | some v => v
        | none => 0)
      = specPreferredStock item := by
  unfold specPreferredStock
  cases item.itemStock with
  | some stock => simp
  | none =>
    cases item.stockCount with
    | some v => simp
    | none => simp

/-- A matched entry produced by one `matchRowStep` is either carried
over or satisfies the stock-derivation contract. -/
theorem matchRowStep_matched_mem (rm : RefMethod) (uc nc sc vc : String)
    (items : List CloverItem) (st : List MatchedItem × List UnmatchedItem) (row : Row)
    (e : MatchedItem) (he : e ∈ (matchRowStep rm uc nc sc vc items st row).1) :
    e ∈ st.1 ∨ (e.currentStock = specPreferredStock e.item
      ∧ e.newStock = e.currentStock + e.calculatedStock) := by
  unfold matchRowStep at he
  dsimp only at he
  split at he
  · exact Or.inl he
  · split at he
    · exact Or.inl he
    · split at he
      · rcases List.mem_append.mp he with h1 | h2
        · exact Or.inl h1
        · right
          have heq := List.mem_singleton.mp h2
          subst heq
          refine ⟨?_, rfl⟩
          exact stockMatch_eq_spec _
      · exact Or.inl he

theorem matchItems_fold_matched (rm : RefMethod) (uc nc sc vc : String)
    (items : List CloverItem) :
    ∀ (csv : List Row) (st : List MatchedItem × List UnmatchedItem),
      (∀ e ∈ st.1, e.currentStock = specPreferredStock e.item
        ∧ e.newStock = e.currentStock + e.calculatedStock) →
      ∀ e ∈ (csv.foldl (matchRowStep rm uc nc sc vc items) st).1,
        e.currentStock = specPreferredStock e.item
        ∧ e.newStock = e.currentStock + e.calculatedStock := by
  intro csv
  induction csv with
  | nil =>
    intro st hst e he
    exact hst e he
  | cons row rest ih =>
    intro st hst e he
    rw [List.foldl_cons] at he
    refine ih _ ?_ e he
    intro e' he'
    rcases matchRowStep_matched_mem rm uc nc sc vc items st row e' he' with h | h
    · exact hst e' h
    · exact h

end Clover

/-- C6: every path that derives an item's current stock — the shared
sync/tag-refresh upsert payload (`toRow`) and the CSV matcher's
`currentStock` — takes the expanded `itemStock.stockCount` when present
and falls back to the root-level `stockCount` only when the expansion is
absent, defaulting to 0 when both are absent; and the matcher computes
`newStock = currentStock + delta`. -/
theorem stock_read_paths_prefer_expanded :
    (∀ (now : Int) (item : Clover.CloverItem),
      (Clover.toRow now item).stockCount = Clover.specPreferredStock item)
    ∧ (∀ (rm : Clover.RefMethod) (uc nc sc vc : String) (csv : List Clover.Row)
        (items : List Clover.CloverItem),
        ∀ e ∈ (Clover.matchItems rm uc nc sc vc csv items).1,
          e.currentStock = Clover.specPreferredStock e.item
          ∧ e.newStock = e.currentStock + e.calculatedStock) := by
  constructor
  · intro now item
    show (match item.itemStock with
      | some stock => stock.stockCount
      | none =>
        match item.stockCount with
        | some v => v
        | none => 0) = Clover.specPreferredStock item
    exact Clover.stockMatch_eq_spec item
  · intro rm uc nc sc vc csv items e he
    exact Clover.matchItems_fold_matched rm uc nc sc vc items csv ([], [])
      (by intro e' he'; simp at he') e he

/-- C6 witness: a concrete matched entry from a CoreMark run satisfies
the stock contract. -/
theorem stock_read_paths_prefer_expanded_witness :
    Clover.wMatched1 ∈ (Clover.matchItems Clover.RefMethod.upc "UPC" "" ""
        "Vendor_CoreMark" [[("UPC", "123"), ("Qty", "2")]] [Clover.wItem1]).1
    ∧ Clover.wMatched1.currentStock = Clover.specPreferredStock Clover.wMatched1.item := by
  have hmem : Clover.wMatched1 ∈ (Clover.matchItems Clover.RefMethod.upc "UPC" "" ""
      "Vendor_CoreMark" [[("UPC", "123"), ("Qty", "2")]] [Clover.wItem1]).1 := by decide
  exact ⟨hmem, (stock_read_paths_prefer_expanded.2 Clover.RefMethod.upc "UPC" "" ""
    "Vendor_CoreMark" [[("UPC", "123"), ("Qty", "2")]] [Clover.wItem1]
    Clover.wMatched1 hmem).1⟩

namespace Clover

/-- The upserted item is found under its remote ID after its step. -/
theorem upsertItemStep_self (now : Int) (m : List MirrorRow) (item : CloverItem) :
    findUniqueById item.id (upsertItemStep now m item) = some (toRow now item) := by
  unfold upsertItemStep
  exact findUniqueById_upsertById_self (toRow now item) _

theorem nodup_ids_upsertItemStep (now : Int) (m : List MirrorRow) (item : CloverItem)
    (hids : (m.map (fun r => r.id)).Nodup) :
    ((upsertItemStep now m item).map (fun r => r.id)).Nodup := by
  unfold upsertItemStep
  apply nodup_ids_upsertById
  cases hsk : item.sku with
  | none => exact hids
  | some s =>
    by_cases hs : s = ""
    · simp only [if_pos hs]
      exact hids
    · simp only [if_neg hs]
      cases hf : findUniqueBySku s m with
      | none => exact hids
      | some ex =>
        by_cases hex : ex.id ≠ item.id
        · simp only [if_pos hex]
          exact nodup_ids_deleteById _ _ hids
        · simp only [if_neg hex]
          exact hids

/-- A row registered under an ID distinct from the incoming item's, with
a SKU distinct from the incoming item's effective SKU, survives the
item's upsert step unchanged. -/
theorem upsertItemStep_preserve (now : Int) (m : List MirrorRow) (item : CloverItem)
    (id : String) (row : MirrorRow)
    (hids : (m.map (fun r => r.id)).Nodup)
    (hlook : findUniqueById id m = some row)
    (hid : item.id ≠ id)
    (hsku : ∀ t : String, row.sku = some t → jsOrNullStr item.sku ≠ some t) :
    findUniqueById id (upsertItemStep now m item) = some row := by
  unfold upsertItemStep
  have hstep2 : ∀ m1 : List MirrorRow, findUniqueById id m1 = some row →
      findUniqueById id (upsertById (toRow now item) m1) = some row := by
    intro m1 h1
    rw [findUniqueById_upsertById_other id _ m1 (fun h => hid h.symm)]
    exact h1
  apply hstep2
  cases hsk : item.sku with
  | none => exact hlook
  | some s =>
    by_cases hs : s = ""
    · simp only [if_pos hs]
      exact hlook
    · simp only [if_neg hs]
      cases hf : findUniqueBySku s m with
      | none => exact hlook
      | some ex =>
        by_cases hex : ex.id ≠ item.id
        · simp only [if_pos hex]
          rw [findUniqueById_deleteById_other id ex.id m ?hne]
          · exact hlook
          case hne =>
            intro heq
            obtain ⟨hexm, hexsku⟩ := findUniqueBySku_some s m ex hf
            obtain ⟨hrowm, hrowid⟩ := findUniqueById_some id m row hlook
            have hre : row = ex := mem_id_unique m hids row ex hrowm hexm (by rw [hrowid, heq])
            exact hsku s (hre ▸ hexsku) (by simp [jsOrNullStr, hsk, hs])
        · simp only [if_neg hex]
          exact hlook

end Clover

/-- C3: during a sync or tag-refresh upsert pass, an incoming item
carrying a non-empty SKU takes sole ownership of it: the stale mirror
row owning that SKU under a different remote ID is deleted before the
upsert, the incoming item's row is present under its remote ID, and
every row of the resulting mirror carrying that SKU has the incoming
item's ID — at most one row per non-null SKU. -/
theorem sku_collision_resolution (now : Int) (m : List Clover.MirrorRow)
    (item : Clover.CloverItem) (s : String)
    (hids : (m.map (fun r => r.id)).Nodup)
    (hsku : ∀ r1 ∈ m, ∀ r2 ∈ m, ∀ t : String,
      r1.sku = some t → r2.sku = some t → r1 = r2)
    (hs : Clover.jsOrNullStr item.sku = some s) :
    (∀ r ∈ Clover.upsertItemStep now m item, r.sku = some s → r.id = item.id)
    ∧ Clover.findUniqueById item.id (Clover.upsertItemStep now m item)
        = some (Clover.toRow now item)
    ∧ (∀ r ∈ m, r.sku = some s → r.id ≠ item.id →
        r ∉ Clover.upsertItemStep now m item) := by
  have hcase : item.sku = some s ∧ s ≠ "" := by
    cases hsk : item.sku with
    | none => simp [Clover.jsOrNullStr, hsk] at hs
    | some u =>
      by_cases hu : u = ""
      · simp [Clover.jsOrNullStr, hsk, hu] at hs
      · simp only [Clover.jsOrNullStr, hsk, if_neg hu, Option.some_inj] at hs
        exact ⟨by rw [hs], hs ▸ hu⟩
  refine ⟨?_, Clover.upsertItemStep_self now m item, ?_⟩
  · intro r hr hrs
    unfold Clover.upsertItemStep at hr
    rw [hcase.1] at hr
    dsimp only at hr
    rw [if_neg hcase.2] at hr
    cases hf : Clover.findUniqueBySku s m with
    | none =>
      rw [hf] at hr
      dsimp only at hr
      rcases Clover.mem_upsertById _ r m hr with rfl | hrm
      · rfl
      · exact absurd hrs (Clover.findUniqueBySku_none s m hf r hrm)
    | some ex =>
      obtain ⟨hexm, hexsku⟩ := Clover.findUniqueBySku_some s m ex hf
      rw [hf] at hr
      dsimp only at hr
      by_cases hex : ex.id ≠ item.id
      · rw [if_pos hex] at hr
        rcases Clover.mem_upsertById _ r _ hr with rfl | hrm
        · rfl
        · obtain ⟨hrm0, hrne⟩ := Clover.mem_deleteById ex.id r m hrm
          have : r = ex := hsku r hrm0 ex hexm s hrs hexsku
          exact absurd (this ▸ rfl) (this ▸ hrne)
      · rw [if_neg hex] at hr
        push_neg at hex
        rcases Clover.mem_upsertById _ r m hr with rfl | hrm
        · rfl
        · have : r = ex := hsku r hrm ex hexm s hrs hexsku
          rw [this, hex]
  · intro r hrm hrs hrneq hmem
    unfold Clover.upsertItemStep at hmem
    rw [hcase.1] at hmem
    dsimp only at hmem
    rw [if_neg hcase.2] at hmem
    cases hf : Clover.findUniqueBySku s m with
    | none => exact Clover.findUniqueBySku_none s m hf r hrm hrs
    | some ex =>
      obtain ⟨hexm, hexsku⟩ := Clover.findUniqueBySku_some s m ex hf
      have hre : r = ex := hsku r hrm ex hexm s hrs hexsku
      rw [hf] at hmem
      dsimp only at hmem
      by_cases hex : ex.id ≠ item.id
      · rw [if_pos hex] at hmem
        rcases Clover.mem_upsertById _ r _ hmem with heq | hrm1
        · exact hrneq (by rw [heq]; rfl)
        · obtain ⟨_, hrne⟩ := Clover.mem_deleteById ex.id r m hrm1
          exact hrne (by rw [hre])
      · push_neg at hex
        exact hrneq (by rw [hre, hex])

/-- C3 witness: syncing an item with id "Y" and sku "111" over a mirror
whose row "X" owns sku "111" deletes "X" and installs "Y" as the sole
owner. -/
theorem sku_collision_resolution_witness :
    Clover.findUniqueById "Y" (Clover.upsertItemStep 0 [Clover.wRowX] Clover.wItemY)
      = some (Clover.toRow 0 Clover.wItemY)
    ∧ Clover.wRowX ∉ Clover.upsertItemStep 0 [Clover.wRowX] Clover.wItemY := by
  have h := sku_collision_resolution 0 [Clover.wRowX] Clover.wItemY "111"
    (by decide) (by decide) (by decide)
  exact ⟨h.2.1, h.2.2 Clover.wRowX (by decide) (by decide) (by decide)⟩

namespace Clover

theorem toRow_sku (now : Int) (item : CloverItem) :
    (toRow now item).sku = jsOrNullStr item.sku := rfl

theorem toRow_id (now : Int) (item : CloverItem) :
    (toRow now item).id = item.id := rfl

theorem strContains_iff (l : List String) (a : String) :
    l.contains a = true ↔ a ∈ l := by
  show l.elem a = true ↔ a ∈ l
  exact List.elem_iff

theorem syncUpserts_nodup (now : Int) (items : List CloverItem) :
    ∀ m : List MirrorRow, (m.map (fun r => r.id)).Nodup →
      ((syncUpserts now m items).map (fun r => r.id)).Nodup := by
  induction items with
  | nil =>
    intro m h
    exact h
  | cons i rest ih =>
    intro m h
    unfold syncUpserts
    rw [List.foldl_cons]
    exact ih (upsertItemStep now m i) (nodup_ids_upsertItemStep now m i h)

/-- A row untouched by every item of the pass (different id, different
effective SKU) is still found unchanged after the pass. -/
theorem syncUpserts_preserve (now : Int) (items : List CloverItem) :
    ∀ (m : List MirrorRow) (id : String) (row : MirrorRow),
      (m.map (fun r => r.id)).Nodup →
      findUniqueById id m = some row →
      (∀ i ∈ items, i.id ≠ id) →
      (∀ i ∈ items, ∀ t : String, row.sku = some t → jsOrNullStr i.sku ≠ some t) →
      findUniqueById id (syncUpserts now m items) = some row := by
  induction items with
  | nil =>
    intro m id row _ h _ _
    exact h
  | cons i rest ih =>
    intro m id row hids hlook hid hsku
    unfold syncUpserts
    rw [List.foldl_cons]
    exact ih (upsertItemStep now m i)
      id row
      (nodup_ids_upsertItemStep now m i hids)
      (upsertItemStep_preserve now m i id row hids hlook
        (hid i (List.mem_cons_self i rest))
        (hsku i (List.mem_cons_self i rest)))
      (fun j hj => hid j (List.mem_cons_of_mem i hj))
      (fun j hj => hsku j (List.mem_cons_of_mem i hj))

/-- After the upsert pass, every fetched item is found under its remote
ID with exactly the upserted payload, provided the fetched ids are
pairwise distinct and the fetched effective SKUs are pairwise
distinct. -/
theorem syncUpserts_spec (now : Int) (items : List CloverItem) :
    ∀ m : List MirrorRow, (m.map (fun r => r.id)).Nodup →
      (items.map (fun i => i.id)).Nodup →
      items.Pairwise (fun a b => ∀ t : String,
        jsOrNullStr a.sku = some t → jsOrNullStr b.sku ≠ some t) →
      ∀ j ∈ items, findUniqueById j.id (syncUpserts now m items) = some (toRow now j) := by
  induction items with
  | nil =>
    intro m _ _ _ j hj
    simp at hj
  | cons i rest ih =>
    intro m hm hids hpair j hj
    unfold syncUpserts
    rw [List.foldl_cons]
    obtain ⟨hihd, hidtl⟩ := List.nodup_cons.mp hids
    obtain ⟨hphd, hptl⟩ := List.pairwise_cons.mp hpair
    rcases List.mem_cons.mp hj with rfl | hjr
    · refine syncUpserts_preserve now rest (upsertItemStep now m j) j.id (toRow now j)
        (nodup_ids_upsertItemStep now m j hm)
        (upsertItemStep_self now m j) ?_ ?_
      · intro b hb hbid
        refine hihd ?_
        show j.id ∈ List.map (fun i => i.id) rest
        rw [← hbid]
        exact List.mem_map.mpr ⟨b, hb, rfl⟩
      · intro b hb t hts
        exact hphd b hb t ((toRow_sku now j) ▸ hts)
    · exact ih (upsertItemStep now m i) (nodup_ids_upsertItemStep now m i hm)
        hidtl hptl j hjr

end Clover

/-- C1 counterexample: the claim fails when the successfully fetched
remote set itself contains two items with distinct IDs sharing one SKU —
syncing `[X(id "1", sku "a"), Y(id "2", sku "a")]` over an empty mirror
leaves X absent (Y's SKU-collision pass deletes X's freshly upserted
row), so the mirror does not contain every item of R. -/
theorem full_sync_counterexample :
    Clover.cItemX ∈ [Clover.cItemX, Clover.cItemY]
    ∧ Clover.findUniqueById Clover.cItemX.id
        (Clover.syncPOST 0 [] [Clover.cItemX, Clover.cItemY]) = none := by
  constructor
  · decide
  · decide

/-- C1 (amended): a full sync that completes with status success (the
whole fetch succeeded and delivered `items`) leaves the mirror
containing exactly the fetched items — each one upserted under its
remote ID, every other row deleted by the reconciliation pass that
follows all upserts — provided the fetched items carry pairwise-distinct
remote IDs and pairwise-distinct non-empty SKUs (the original claim,
quantified over every remote set, is refuted above by an in-fetch SKU
collision). -/
theorem full_sync_mirror_exact (now : Int) (m : List Clover.MirrorRow)
    (items : List Clover.CloverItem)
    (hm : (m.map (fun r => r.id)).Nodup)
    (hids : (items.map (fun i => i.id)).Nodup)
    (hskus : items.Pairwise (fun a b => ∀ t : String,
      Clover.jsOrNullStr a.sku = some t → Clover.jsOrNullStr b.sku ≠ some t)) :
    (∀ r ∈ Clover.syncPOST now m items, ∃ i ∈ items, r = Clover.toRow now i)
    ∧ (∀ i ∈ items, Clover.findUniqueById i.id (Clover.syncPOST now m items)
        = some (Clover.toRow now i)) := by
  have hafter := Clover.syncUpserts_spec now items m hm hids hskus
  have hnodup := Clover.syncUpserts_nodup now items m hm
  constructor
  · intro r hr
    unfold Clover.syncPOST at hr
    have hrm := List.mem_of_mem_filter hr
    have hp := List.of_mem_filter hr
    simp only [Bool.not_eq_eq_eq_not, Bool.not_true] at hp
    have hrid_in : r.id ∈ items.map (fun i => i.id) := by
      by_contra hno
      have hconts : (items.map (fun i => i.id)).contains r.id = false := by
        cases hc : (items.map (fun i => i.id)).contains r.id with
        | false => rfl
        | true => exact absurd ((Clover.strContains_iff _ _).mp hc) hno
      have hdel : r.id ∈ ((Clover.syncUpserts now m items).map (fun x => x.id)).filter
          (fun i => !((items.map (fun i => i.id)).contains i)) := by
        apply List.mem_filter.mpr
        exact ⟨List.mem_map.mpr ⟨r, hrm, rfl⟩, by rw [hconts]; rfl⟩
      have := (Clover.strContains_iff _ r.id).mpr hdel
      rw [hp] at this
      exact Bool.false_ne_true this
    obtain ⟨i, hi, hiid⟩ := List.mem_map.mp hrid_in
    refine ⟨i, hi, ?_⟩
    have hfound := hafter i hi
    obtain ⟨hmemrow, _⟩ := Clover.findUniqueById_some i.id _ _ hfound
    exact Clover.mem_id_unique (Clover.syncUpserts now m items) hnodup r
      (Clover.toRow now i) hrm hmemrow (by rw [Clover.toRow_id]; exact hiid.symm)
  · intro i hi
    unfold Clover.syncPOST
    apply Clover.findUniqueById_filter i.id _ (Clover.toRow now i) _ hnodup (hafter i hi)
    have hidmem : (Clover.toRow now i).id ∈ items.map (fun j => j.id) :=
      List.mem_map.mpr ⟨i, hi, rfl⟩
    cases hc : (((Clover.syncUpserts now m items).map (fun x => x.id)).filter
        (fun x => !((items.map (fun j => j.id)).contains x))).contains
          (Clover.toRow now i).id with
    | false => rfl
    | true =>
      exfalso
      have hmemf := (Clover.strContains_iff _ _).mp hc
      have := List.of_mem_filter hmemf
      simp only [Bool.not_eq_eq_eq_not, Bool.not_true] at this
      have hcontr := (Clover.strContains_iff (items.map (fun j => j.id))
        ((Clover.toRow now i).id)).mpr hidmem
      rw [this] at hcontr
      exact Bool.false_ne_true hcontr

/-- C1 witness: syncing the single item Y over a mirror holding only the
foreign row X yields a mirror containing exactly Y's row. -/
theorem full_sync_mirror_exact_witness :
    Clover.findUniqueById "Y" (Clover.syncPOST 0 [Clover.wRowX] [Clover.wItemY])
      = some (Clover.toRow 0 Clover.wItemY) :=
  (full_sync_mirror_exact 0 [Clover.wRowX] [Clover.wItemY]
    (by decide) (by decide) (by simp)).2 Clover.wItemY (by decide)

namespace Clover

/-! ## Characterizing the missing-item detection -/

theorem bnot_true_iff (b : Bool) : (!b) = true ↔ b = false := by
  cases b <;> simp

/-- A CSV value that trims to empty cannot fuzzy-match anything, which
is why the route's skip of such values is invisible in the result. -/
theorem fuzzyMatchUPC_trim_empty (u : String) (h : jsTrim u = "") (x : Option String) :
    fuzzyMatchUPC x (some u) = false := by
  have hnorm : normalizeUPC (some u) = "" := by
    by_cases hu : u = ""
    · simp [normalizeUPC, hu]
    · simp [normalizeUPC, hu, h]
  unfold fuzzyMatchUPC
  rw [hnorm]
  simp

theorem upcScanItems_cons (u : String) (r : MirrorRow) (t : List MirrorRow)
    (st : List MissingItem × List String) :
    upcScanItems u (r :: t) st = upcScanItems u t
      (if st.2.contains r.id = true then st
       else if fuzzyMatchUPC r.sku (some u) = true then
         (st.1 ++ [missingProj r], st.2 ++ [r.id])
       else if fuzzyMatchUPC r.code (some u) = true then
         (st.1 ++ [missingProj r], st.2 ++ [r.id])
       else st) := by
  unfold upcScanItems
  rw [List.foldl_cons]

theorem upcScanItems_snd (u : String) (items : List MirrorRow) :
    ∀ st : List MissingItem × List String,
      st.2 = st.1.map (fun mi => mi.id) →
      (upcScanItems u items st).2 = (upcScanItems u items st).1.map (fun mi => mi.id) := by
  induction items with
  | nil =>
    intro st h
    exact h
  | cons r t ih =>
    intro st h
    unfold upcScanItems
    rw [List.foldl_cons]
    refine ih _ ?_
    by_cases h1 : st.2.contains r.id = true
    · simp only [if_pos h1]
      exact h
    · by_cases h2 : fuzzyMatchUPC r.sku (some u) = true
      · simp only [if_neg h1, if_pos h2]
        simp [h, missingProj]
      · by_cases h3 : fuzzyMatchUPC r.code (some u) = true
        · simp only [if_neg h1, if_neg h2, if_pos h3]
          simp [h, missingProj]
        · simp only [if_neg h1, if_neg h2, if_neg h3]
          exact h

theorem upcScanItems_snd_mono (u : String) (items : List MirrorRow) :
    ∀ (st : List MissingItem × List String) (x : String),
      x ∈ st.2 → x ∈ (upcScanItems u items st).2 := by
  induction items with
  | nil =>
    intro st x h
    exact h
  | cons r t ih =>
    intro st x h
    unfold upcScanItems
    rw [List.foldl_cons]
    refine ih _ x ?_
    by_cases h1 : st.2.contains r.id = true
    · simp only [if_pos h1]
      exact h
    · by_cases h2 : fuzzyMatchUPC r.sku (some u) = true
      · simp only [if_neg h1, if_pos h2]
        exact List.mem_append_left _ h
      · by_cases h3 : fuzzyMatchUPC r.code (some u) = true
        · simp only [if_neg h1, if_neg h2, if_pos h3]
          exact List.mem_append_left _ h
        · simp only [if_neg h1, if_neg h2, if_neg h3]
          exact h

/-- Membership in the matched list after scanning all untagged items
for one CSV value. -/
theorem upcScanItems_mem (u : String) (items : List MirrorRow)
    (hnd : (items.map (fun r => r.id)).Nodup) :
    ∀ (st : List MissingItem × List String) (mi : MissingItem),
      st.2 = st.1.map (fun x => x.id) →
      (mi ∈ (upcScanItems u items st).1 ↔
        mi ∈ st.1 ∨ ∃ r ∈ items, mi = missingProj r
          ∧ (fuzzyMatchUPC r.sku (some u) = true ∨ fuzzyMatchUPC r.code (some u) = true)
          ∧ st.2.contains r.id = false) := by
  induction items with
  | nil =>
    intro st mi hinv
    simp [upcScanItems]
  | cons r t ih =>
    have hndr : r.id ∉ t.map (fun x => x.id) := (List.nodup_cons.mp hnd).1
    have hndt := (List.nodup_cons.mp hnd).2
    intro st mi hinv
    rw [upcScanItems_cons]
    have hstep := ih hndt
    by_cases h1 : st.2.contains r.id = true
    · rw [if_pos h1]
      rw [hstep st mi hinv]
      constructor
      · rintro (hm | ⟨r', hr', hproj, hmatch, hc⟩)
        · exact Or.inl hm
        · exact Or.inr ⟨r', List.mem_cons_of_mem r hr', hproj, hmatch, hc⟩
      · rintro (hm | ⟨r', hr', hproj, hmatch, hc⟩)
        · exact Or.inl hm
        · rcases List.mem_cons.mp hr' with rfl | hr't
          · rw [h1] at hc
            exact absurd hc (by simp)
          · exact Or.inr ⟨r', hr't, hproj, hmatch, hc⟩
    · by_cases hmatchr : fuzzyMatchUPC r.sku (some u) = true
        ∨ fuzzyMatchUPC r.code (some u) = true
      · have hstate : (if st.2.contains r.id = true then st
            else if fuzzyMatchUPC r.sku (some u) = true then
              (st.1 ++ [missingProj r], st.2 ++ [r.id])
            else if fuzzyMatchUPC r.code (some u) = true then
              (st.1 ++ [missingProj r], st.2 ++ [r.id])
            else st) = (st.1 ++ [missingProj r], st.2 ++ [r.id]) := by
          rcases hmatchr with h2 | h2
          · rw [if_neg h1, if_pos h2]
          · by_cases h2' : fuzzyMatchUPC r.sku (some u) = true
            · rw [if_neg h1, if_pos h2']
            · rw [if_neg h1, if_neg h2', if_pos h2]
        rw [hstate]
        have hinv' : (st.2 ++ [r.id]) = (st.1 ++ [missingProj r]).map (fun x => x.id) := by
          simp [hinv, missingProj]
        rw [hstep (st.1 ++ [missingProj r], st.2 ++ [r.id]) mi hinv']
        constructor
        · rintro (hm | ⟨r', hr', hproj, hmatch, hc⟩)
          · rcases List.mem_append.mp hm with hm1 | hm2
            · exact Or.inl hm1
            · refine Or.inr ⟨r, List.mem_cons_self r t, List.mem_singleton.mp hm2, hmatchr, ?_⟩
              cases hc : st.2.contains r.id with
              | false => rfl
              | true => exact absurd hc h1
          · refine Or.inr ⟨r', List.mem_cons_of_mem r hr', hproj, hmatch, ?_⟩
            cases hc' : st.2.contains r'.id with
            | false => rfl
            | true =>
              exfalso
              have : r'.id ∈ st.2 ++ [r.id] :=
                List.mem_append_left _ ((strContains_iff _ _).mp hc')
              have := (strContains_iff (st.2 ++ [r.id]) r'.id).mpr this
              rw [hc] at this
              exact Bool.false_ne_true this
        · rintro (hm | ⟨r', hr', hproj, hmatch, hc⟩)
          · exact Or.inl (List.mem_append_left _ hm)
          · rcases List.mem_cons.mp hr' with rfl | hr't
            · exact Or.inl (List.mem_append_right _ (by simp [hproj]))
            · refine Or.inr ⟨r', hr't, hproj, hmatch, ?_⟩
              cases hc' : (st.2 ++ [r.id]).contains r'.id with
              | false => rfl
              | true =>
                exfalso
                rcases List.mem_append.mp ((strContains_iff _ _).mp hc') with hin | hin
                · have := (strContains_iff st.2 r'.id).mpr hin
                  rw [hc] at this
                  exact Bool.false_ne_true this
                · have : r'.id = r.id := List.mem_singleton.mp hin
                  exact hndr (this ▸ List.mem_map.mpr ⟨r', hr't, rfl⟩)
      · push_neg at hmatchr
        have h2 : fuzzyMatchUPC r.sku (some u) ≠ true := fun h => hmatchr.1 h
        have h3 : fuzzyMatchUPC r.code (some u) ≠ true := fun h => hmatchr.2 h
        rw [if_neg h1, if_neg h2, if_neg h3]
        rw [hstep st mi hinv]
        constructor
        · rintro (hm | ⟨r', hr', hproj, hmatch, hc⟩)
          · exact Or.inl hm
          · exact Or.inr ⟨r', List.mem_cons_of_mem r hr', hproj, hmatch, hc⟩
        · rintro (hm | ⟨r', hr', hproj, hmatch, hc⟩)
          · exact Or.inl hm
          · rcases List.mem_cons.mp hr' with rfl | hr't
            · rcases hmatch with h | h
              · exact absurd h h2
              · exact absurd h h3
            · exact Or.inr ⟨r', hr't, hproj, hmatch, hc⟩

end Clover

namespace Clover

theorem missingProj_id (r : MirrorRow) : (missingProj r).id = r.id := rfl

/-- Membership after folding all CSV values over the untagged items:
exactly the untagged items fuzzy-matched by some value (values trimming
to empty contribute nothing, since they fuzzy-match nothing). -/
theorem findUPC_fold_mem (itemsW : List MirrorRow)
    (hnd : (itemsW.map (fun r => r.id)).Nodup) :
    ∀ (upcs : List String) (st : List MissingItem × List String) (mi : MissingItem),
      st.2 = st.1.map (fun x => x.id) →
      (mi ∈ (upcs.foldl (fun st searchUPC =>
          if jsTrim searchUPC = "" then st else upcScanItems searchUPC itemsW st) st).1 ↔
        mi ∈ st.1 ∨ ∃ r ∈ itemsW, mi = missingProj r
          ∧ (∃ u ∈ upcs, fuzzyMatchUPC r.sku (some u) = true
              ∨ fuzzyMatchUPC r.code (some u) = true)
          ∧ st.2.contains r.id = false) := by
  intro upcs
  induction upcs with
  | nil =>
    intro st mi hinv
    simp
  | cons u us ih =>
    intro st mi hinv
    rw [List.foldl_cons]
    by_cases ht : jsTrim u = ""
    · rw [if_pos ht]
      rw [ih st mi hinv]
      constructor
      · rintro (hm | ⟨r, hr, hproj, ⟨u', hu', hmatch⟩, hc⟩)
        · exact Or.inl hm
        · exact Or.inr ⟨r, hr, hproj, ⟨u', List.mem_cons_of_mem u hu', hmatch⟩, hc⟩
      · rintro (hm | ⟨r, hr, hproj, ⟨u', hu', hmatch⟩, hc⟩)
        · exact Or.inl hm
        · rcases List.mem_cons.mp hu' with rfl | hu's
          · exfalso
            rcases hmatch with h | h
            · rw [fuzzyMatchUPC_trim_empty u' ht r.sku] at h
              exact Bool.false_ne_true h
            · rw [fuzzyMatchUPC_trim_empty u' ht r.code] at h
              exact Bool.false_ne_true h
          · exact Or.inr ⟨r, hr, hproj, ⟨u', hu's, hmatch⟩, hc⟩
    · rw [if_neg ht]
      have hinv' := upcScanItems_snd u itemsW st hinv
      rw [ih (upcScanItems u itemsW st) mi hinv']
      rw [upcScanItems_mem u itemsW hnd st mi hinv]
      constructor
      · rintro (hm | ⟨r, hr, hproj, ⟨u', hu', hmatch⟩, hc⟩)
        · rcases hm with hm0 | ⟨r, hr, hproj, hmatch, hc⟩
          · exact Or.inl hm0
          · exact Or.inr ⟨r, hr, hproj, ⟨u, List.mem_cons_self u us, hmatch⟩, hc⟩
        · refine Or.inr ⟨r, hr, hproj, ⟨u', List.mem_cons_of_mem u hu', hmatch⟩, ?_⟩
          cases hc0 : st.2.contains r.id with
          | false => rfl
          | true =>
            exfalso
            have hmem := (strContains_iff _ _).mp hc0
            have hmono := (strContains_iff _ _).mpr
              (upcScanItems_snd_mono u itemsW st r.id hmem)
            rw [hc] at hmono
            exact Bool.false_ne_true hmono
      · rintro (hm | ⟨r, hr, hproj, ⟨u', hu', hmatch⟩, hc⟩)
        · exact Or.inl (Or.inl hm)
        · rcases List.mem_cons.mp hu' with rfl | hu's
          · exact Or.inl (Or.inr ⟨r, hr, hproj, hmatch, hc⟩)
          · cases hc' : (upcScanItems u itemsW st).2.contains r.id with
            | false => exact Or.inr ⟨r, hr, hproj, ⟨u', hu's, hmatch⟩, hc'⟩
            | true =>
              left
              have hidmem : r.id ∈ (upcScanItems u itemsW st).2 :=
                (strContains_iff _ _).mp hc'
              rw [hinv'] at hidmem
              rcases List.mem_map.mp hidmem with ⟨mi', hmi', hmiid⟩
              rcases (upcScanItems_mem u itemsW hnd st mi' hinv).mp hmi' with
                hin | ⟨r'', hr'', hproj'', hmatch'', hc''⟩
              · exfalso
                have hmem2 : r.id ∈ st.2 := by
                  rw [hinv]
                  exact hmiid ▸ List.mem_map.mpr ⟨mi', hin, rfl⟩
                have hcontr := (strContains_iff _ _).mpr hmem2
                rw [hc] at hcontr
                exact Bool.false_ne_true hcontr
              · have hrid : r''.id = r.id := by
                  rw [hproj''] at hmiid
                  exact hmiid
                have hrr : r'' = r := mem_id_unique itemsW hnd r'' r hr'' hr hrid
                rw [hrr] at hmatch'' hc''
                exact Or.inr ⟨r, hr, hproj, hmatch'', hc''⟩

/-- The route's UPC branch returns exactly the untagged mirror items
whose SKU or code fuzzy-matches one of the CSV values. -/
theorem findMissingByUPC_mem (mirror : List MirrorRow) (tagId : String) (upcs : List String)
    (hnd : (mirror.map (fun r => r.id)).Nodup) (mi : MissingItem) :
    mi ∈ findMissingByUPC mirror tagId upcs ↔
      ∃ r ∈ mirror, mi = missingProj r ∧ r.tags.contains tagId = false
        ∧ ∃ u ∈ upcs, fuzzyMatchUPC r.sku (some u) = true
            ∨ fuzzyMatchUPC r.code (some u) = true := by
  have hmain := findUPC_fold_mem (mirror.filter (fun r => !(r.tags.contains tagId)))
    (nodup_ids_filter _ _ hnd) upcs ([], []) mi rfl
  constructor
  · intro hm
    rcases hmain.mp hm with h0 | ⟨r, hr, hproj, hmatch, _⟩
    · exact absurd h0 (List.not_mem_nil mi)
    · obtain ⟨hrm, hp⟩ := List.mem_filter.mp hr
      exact ⟨r, hrm, hproj, (bnot_true_iff _).mp hp, hmatch⟩
  · rintro ⟨r, hrm, hproj, htag, hmatch⟩
    refine hmain.mpr (Or.inr ⟨r, List.mem_filter.mpr ⟨hrm, (bnot_true_iff _).mpr htag⟩,
      hproj, hmatch, rfl⟩)

end Clover

namespace Clover

theorem nameFold_mem (mirror : List MirrorRow) (tagId : String) :
    ∀ (names : List String) (acc : List MissingItem) (mi : MissingItem),
      mi ∈ names.foldl (fun acc searchName =>
        acc ++ (mirror.filter (fun r =>
          jsIncludes (lowerStr r.name) (lowerStr searchName) &&
            !(r.tags.contains tagId))).map missingProj) acc ↔
      mi ∈ acc ∨ ∃ r ∈ mirror, mi = missingProj r ∧ r.tags.contains tagId = false
        ∧ ∃ nm ∈ names, jsIncludes (lowerStr r.name) (lowerStr nm) = true := by
  intro names
  induction names with
  | nil =>
    intro acc mi
    simp
  | cons nm ns ih =>
    intro acc mi
    rw [List.foldl_cons]
    rw [ih]
    constructor
    · rintro (hm | ⟨r, hr, hproj, htag, nm', hnm', hincl⟩)
      · rcases List.mem_append.mp hm with h1 | h2
        · exact Or.inl h1
        · rcases List.mem_map.mp h2 with ⟨r, hr, hproj⟩
          obtain ⟨hrm, hp⟩ := List.mem_filter.mp hr
          rw [Bool.and_eq_true] at hp
          exact Or.inr ⟨r, hrm, hproj.symm, (bnot_true_iff _).mp hp.2,
            nm, List.mem_cons_self _ _, hp.1⟩
      · exact Or.inr ⟨r, hr, hproj, htag, nm', List.mem_cons_of_mem _ hnm', hincl⟩
    · rintro (hm | ⟨r, hr, hproj, htag, nm', hnm', hincl⟩)
      · exact Or.inl (List.mem_append_left _ hm)
      · rcases List.mem_cons.mp hnm' with rfl | hns
        · refine Or.inl (List.mem_append_right _ (List.mem_map.mpr
            ⟨r, List.mem_filter.mpr ⟨hr, ?_⟩, hproj.symm⟩))
          rw [Bool.and_eq_true]
          exact ⟨hincl, (bnot_true_iff _).mpr htag⟩
        · exact Or.inr ⟨r, hr, hproj, htag, nm', hns, hincl⟩

theorem dedupFold_mem :
    ∀ (l : List MissingItem) (acc : List MissingItem × List String) (mi : MissingItem),
      acc.2 = acc.1.map (fun x => x.id) →
      (∀ a, (a ∈ acc.1 ∨ a ∈ l) → ∀ b, (b ∈ acc.1 ∨ b ∈ l) → a.id = b.id → a = b) →
      (mi ∈ (l.foldl (fun (acc : List MissingItem × List String) item =>
          if acc.2.contains item.id then acc
          else (acc.1 ++ [item], acc.2 ++ [item.id])) acc).1 ↔
        mi ∈ acc.1 ∨ mi ∈ l) := by
  intro l
  induction l with
  | nil =>
    intro acc mi hinv hcong
    simp
  | cons x t ih =>
    intro acc mi hinv hcong
    rw [List.foldl_cons]
    by_cases h1 : acc.2.contains x.id = true
    · rw [if_pos h1]
      rw [ih acc mi hinv (fun a ha b hb => hcong a
        (ha.imp id (List.mem_cons_of_mem x)) b (hb.imp id (List.mem_cons_of_mem x)))]
      have hx : x ∈ acc.1 := by
        have hmem : x.id ∈ acc.2 := (strContains_iff _ _).mp h1
        rw [hinv] at hmem
        rcases List.mem_map.mp hmem with ⟨a, ha, haid⟩
        have := hcong a (Or.inl ha) x (Or.inr (List.mem_cons_self x t)) haid
        rw [← this]
        exact ha
      constructor
      · rintro (h | h)
        · exact Or.inl h
        · exact Or.inr (List.mem_cons_of_mem x h)
      · rintro (h | h)
        · exact Or.inl h
        · rcases List.mem_cons.mp h with rfl | ht
          · exact Or.inl hx
          · exact Or.inr ht
    · rw [if_neg h1]
      have hinv' : (acc.2 ++ [x.id]) = (acc.1 ++ [x]).map (fun y => y.id) := by
        simp [hinv]
      have hcong' : ∀ a, (a ∈ acc.1 ++ [x] ∨ a ∈ t) →
          ∀ b, (b ∈ acc.1 ++ [x] ∨ b ∈ t) → a.id = b.id → a = b := by
        intro a ha b hb hab
        refine hcong a ?_ b ?_ hab
        · rcases ha with h | h
          · rcases List.mem_append.mp h with h' | h'
            · exact Or.inl h'
            · exact Or.inr (by rw [List.mem_singleton.mp h']; exact List.mem_cons_self x t)
          · exact Or.inr (List.mem_cons_of_mem x h)
        · rcases hb with h | h
          · rcases List.mem_append.mp h with h' | h'
            · exact Or.inl h'
            · exact Or.inr (by rw [List.mem_singleton.mp h']; exact List.mem_cons_self x t)
          · exact Or.inr (List.mem_cons_of_mem x h)
      rw [ih (acc.1 ++ [x], acc.2 ++ [x.id]) mi hinv' hcong']
      constructor
      · rintro (h | h)
        · rcases List.mem_append.mp h with h' | h'
          · exact Or.inl h'
          · exact Or.inr (List.mem_cons.mpr (Or.inl (List.mem_singleton.mp h')))
        · exact Or.inr (List.mem_cons_of_mem x h)
      · rintro (h | h)
        · exact Or.inl (List.mem_append_left _ h)
        · rcases List.mem_cons.mp h with rfl | ht
          · exact Or.inl (List.mem_append_right _ (by simp))
          · exact Or.inr ht

theorem dedupById_mem (l : List MissingItem)
    (hcong : ∀ a ∈ l, ∀ b ∈ l, a.id = b.id → a = b) (mi : MissingItem) :
    mi ∈ dedupById l ↔ mi ∈ l := by
  have h := dedupFold_mem l ([], []) mi rfl ?_
  · have : mi ∈ dedupById l ↔ mi ∈ ([] : List MissingItem) ∨ mi ∈ l := h
    rw [this]
    simp
  · intro a ha b hb hab
    rcases ha with h' | h'
    · exact absurd h' (List.not_mem_nil a)
    · rcases hb with h'' | h''
      · exact absurd h'' (List.not_mem_nil b)
      · exact hcong a h' b h'' hab

/-- The route's name branch returns exactly the untagged mirror items
whose name case-insensitively contains one of the CSV name values. -/
theorem findMissingByName_mem (mirror : List MirrorRow) (tagId : String)
    (names : List String)
    (hnd : (mirror.map (fun r => r.id)).Nodup) (mi : MissingItem) :
    mi ∈ findMissingByName mirror tagId names ↔
      ∃ r ∈ mirror, mi = missingProj r ∧ r.tags.contains tagId = false
        ∧ ∃ nm ∈ names, jsIncludes (lowerStr r.name) (lowerStr nm) = true := by
  have hall : ∀ mj : MissingItem,
      mj ∈ names.foldl (fun acc searchName =>
        acc ++ (mirror.filter (fun r =>
          jsIncludes (lowerStr r.name) (lowerStr searchName) &&
            !(r.tags.contains tagId))).map missingProj) [] ↔
      ∃ r ∈ mirror, mj = missingProj r ∧ r.tags.contains tagId = false
        ∧ ∃ nm ∈ names, jsIncludes (lowerStr r.name) (lowerStr nm) = true := by
    intro mj
    rw [nameFold_mem mirror tagId names [] mj]
    simp
  have hcong : ∀ a ∈ names.foldl (fun acc searchName =>
      acc ++ (mirror.filter (fun r =>
        jsIncludes (lowerStr r.name) (lowerStr searchName) &&
          !(r.tags.contains tagId))).map missingProj) [],
      ∀ b ∈ names.foldl (fun acc searchName =>
        acc ++ (mirror.filter (fun r =>
          jsIncludes (lowerStr r.name) (lowerStr searchName) &&
            !(r.tags.contains tagId))).map missingProj) [],
      a.id = b.id → a = b := by
    intro a ha b hb hab
    obtain ⟨r1, hr1, hp1, _, _⟩ := (hall a).mp ha
    obtain ⟨r2, hr2, hp2, _, _⟩ := (hall b).mp hb
    have hid12 : r1.id = r2.id := by
      rw [hp1, hp2] at hab
      exact hab
    have hr12 : r1 = r2 := mem_id_unique mirror hnd r1 r2 hr1 hr2 hid12
    rw [hp1, hp2, hr12]
  exact (dedupById_mem _ hcong mi).trans (hall mi)

end Clover

/-- C2: for every CSV identifier-value list and target tag, end-to-end
missing-tag detection (the route's query followed by the client's
filter) returns exactly the mirror items that do not carry the target
tag and whose SKU or code fuzzy-matches one of the CSV values — or,
under the name method, whose name case-insensitively contains one of the
CSV name values — excluding any item already present in the tag-scoped
remote item set. -/
theorem missing_tag_detection_exact (mirror : List Clover.MirrorRow) (tagId : String)
    (upcs names : List String) (remote : List Clover.CloverItem)
    (hnd : (mirror.map (fun r => r.id)).Nodup) :
    (∀ mi : Clover.MissingItem,
      mi ∈ Clover.missingTagDetectionUPC mirror tagId upcs remote ↔
        ∃ r ∈ mirror, mi = Clover.missingProj r
          ∧ r.tags.contains tagId = false
          ∧ (∃ u ∈ upcs, Clover.fuzzyMatchUPC r.sku (some u) = true
              ∨ Clover.fuzzyMatchUPC r.code (some u) = true)
          ∧ (remote.map (fun item => item.id)).contains r.id = false)
    ∧ (∀ mi : Clover.MissingItem,
      mi ∈ Clover.missingTagDetectionName mirror tagId names remote ↔
        ∃ r ∈ mirror, mi = Clover.missingProj r
          ∧ r.tags.contains tagId = false
          ∧ (∃ nm ∈ names, Clover.jsIncludes (Clover.lowerStr r.name)
              (Clover.lowerStr nm) = true)
          ∧ (remote.map (fun item => item.id)).contains r.id = false) := by
  constructor
  · intro mi
    constructor
    · intro hm
      obtain ⟨hin, hp⟩ := List.mem_filter.mp hm
      obtain ⟨r, hrm, hproj, htag, hmatch⟩ :=
        (Clover.findMissingByUPC_mem mirror tagId upcs hnd mi).mp hin
      refine ⟨r, hrm, hproj, htag, hmatch, ?_⟩
      have hid : mi.id = r.id :=
        (congrArg Clover.MissingItem.id hproj).trans (Clover.missingProj_id r)
      rw [← hid]
      exact (Clover.bnot_true_iff _).mp hp
    · rintro ⟨r, hrm, hproj, htag, hmatch, hc⟩
      refine List.mem_filter.mpr
        ⟨(Clover.findMissingByUPC_mem mirror tagId upcs hnd mi).mpr
          ⟨r, hrm, hproj, htag, hmatch⟩, ?_⟩
      apply (Clover.bnot_true_iff _).mpr
      have hid : mi.id = r.id :=
        (congrArg Clover.MissingItem.id hproj).trans (Clover.missingProj_id r)
      rw [hid]
      exact hc
  · intro mi
    constructor
    · intro hm
      obtain ⟨hin, hp⟩ := List.mem_filter.mp hm
      obtain ⟨r, hrm, hproj, htag, hmatch⟩ :=
        (Clover.findMissingByName_mem mirror tagId names hnd mi).mp hin
      refine ⟨r, hrm, hproj, htag, hmatch, ?_⟩
      have hid : mi.id = r.id :=
        (congrArg Clover.MissingItem.id hproj).trans (Clover.missingProj_id r)
      rw [← hid]
      exact (Clover.bnot_true_iff _).mp hp
    · rintro ⟨r, hrm, hproj, htag, hmatch, hc⟩
      refine List.mem_filter.mpr
        ⟨(Clover.findMissingByName_mem mirror tagId names hnd mi).mpr
          ⟨r, hrm, hproj, htag, hmatch⟩, ?_⟩
      apply (Clover.bnot_true_iff _).mpr
      have hid : mi.id = r.id :=
        (congrArg Clover.MissingItem.id hproj).trans (Clover.missingProj_id r)
      rw [hid]
      exact hc

/-- C2 witness: on a two-row mirror, detection for tag "t1" with CSV
value "12345" reports exactly the untagged row whose zero-padded SKU
fuzzy-matches it. -/
theorem missing_tag_detection_exact_witness :
    Clover.missingProj Clover.mRowA ∈ Clover.missingTagDetectionUPC
      [Clover.mRowA, Clover.mRowB] "t1" ["12345"] [] := by
  refine ((missing_tag_detection_exact [Clover.mRowA, Clover.mRowB] "t1" ["12345"]
    ["apple"] [] (by decide)).1 (Clover.missingProj Clover.mRowA)).mpr ?_
  refine ⟨Clover.mRowA, by decide, rfl, by decide, ⟨"12345", by decide, ?_⟩, by decide⟩
  left
  decide
